import Mathlib

/-!
Verification development for the pyx10 repository (X10 powerline home
automation).  Python source is shallowly embedded: half-cycle line bits are
`List Bool` (`true` = '1', `false` = '0'), Python `float` dim values are
modelled as rationals (every concrete value used in a theorem below is
exactly representable in binary floating point, so the rational model agrees
with the float computation there), byte values are `Nat`, and fallible code
returns `Option`.
-/

namespace PyX10

/-- Python `int(q)` on a float/rational: truncation toward zero. -/
def pyTrunc (q : ℚ) : ℤ :=
  if q < 0 then -(Int.floor (-q)) else Int.floor q

/-- `s * n` for a Python string of bits: `n` contiguous copies of `l`. -/
def repL (n : Nat) (l : List Bool) : List Bool :=
  match n with
  | 0 => []
  | n + 1 => l ++ repL n l

/-- From `pyx10/common/pyx10.py`: `RELATIVE_DIM_STEPS = 22`. -/
def RELATIVE_DIM_STEPS : Nat := 22

/-- From `pyx10/common/pyx10.py`: the encoded-code table `X10_CODES`. -/
def X10_CODES : List Nat := [0x6, 0xE, 0x2, 0xA, 0x1, 0x9, 0x5, 0xD, 0x7, 0xF, 0x3, 0xB, 0x0, 0x8, 0x4, 0xC]

def X10_FN_ALL_OFF : Nat := 0x0
def X10_FN_ALL_LIGHTS_ON : Nat := 0x1
def X10_FN_ON : Nat := 0x2
def X10_FN_OFF : Nat := 0x3
def X10_FN_DIM : Nat := 0x4
def X10_FN_BRIGHT : Nat := 0x5
def X10_FN_ALL_LIGHTS_OFF : Nat := 0x6
def X10_FN_EXT_CODE : Nat := 0x7
def X10_FN_HAIL_REQ : Nat := 0x8
def X10_FN_PRESET_DIM_0 : Nat := 0xA
def X10_FN_PRESET_DIM_1 : Nat := 0xB
def X10_FN_STATUS_REQ : Nat := 0xF

/-- `X10AddressEvent` dataclass (`pyx10/common/pyx10.py`). -/
structure X10AddressEvent where
  house_code : Nat
  unit_code : Nat
  deriving DecidableEq, Repr

/-- `X10FunctionEvent` dataclass. -/
structure X10FunctionEvent where
  house_code : Nat
  function : Nat
  deriving DecidableEq, Repr

/-- `X10RelativeDimEvent` dataclass; `dim` is a float in [-1, 1], modelled as ℚ. -/
structure X10RelativeDimEvent where
  house_code : Nat
  dim : ℚ
  deriving DecidableEq, Repr

/-- `X10AbsoluteDimEvent` dataclass; `dim` is a float in [0, 1], modelled as ℚ. -/
structure X10AbsoluteDimEvent where
  dim : ℚ
  deriving DecidableEq, Repr

/-- `X10ExtendedCodeEvent` dataclass. -/
structure X10ExtendedCodeEvent where
  house_code : Nat
  unit_code : Nat
  data_byte : Nat
  cmd_byte : Nat
  deriving DecidableEq, Repr

/-- Sum of the five event dataclasses (the values that flow through queues). -/
inductive X10Event where
  | address (e : X10AddressEvent)
  | functionEv (e : X10FunctionEvent)
  | relativeDim (e : X10RelativeDimEvent)
  | absoluteDim (e : X10AbsoluteDimEvent)
  | extendedCode (e : X10ExtendedCodeEvent)
  deriving DecidableEq, Repr

/-- A two-half-cycle block: `'10' if b else '01'`. -/
def halfPair (b : Bool) : List Bool :=
  if b then [true, false] else [false, true]

/-- `x10_bit_str` from `pyx10/interface/tw523.py`: an X10 code as line bits. -/
def x10_bit_str (n : Nat) : List Bool :=
  halfPair (n &&& 8 != 0) ++ halfPair (n &&& 4 != 0) ++ halfPair (n &&& 2 != 0) ++ halfPair (n &&& 1 != 0)

/-- Frame preamble `'1110'`. -/
def PREAMBLE : List Bool := [true, true, true, false]

/-- `X10AddressEvent_as_bit_str_and_qty` (`pyx10/interface/tw523.py`). -/
def X10AddressEvent_as_bit_str_and_qty (e : X10AddressEvent) : List Bool × Nat :=
  (PREAMBLE ++ x10_bit_str e.house_code ++ x10_bit_str e.unit_code ++ [false, true], 2)

/-- `X10FunctionEvent_as_bit_str_and_qty`. -/
def X10FunctionEvent_as_bit_str_and_qty (e : X10FunctionEvent) : List Bool × Nat :=
  (PREAMBLE ++ x10_bit_str e.house_code ++ x10_bit_str e.function ++ [true, false], 2)

/-- `X10RelativeDimEvent_as_bit_str_and_qty`.  The repeat quantity is
`int(RELATIVE_DIM_STEPS * abs(self.dim))` — Python `int` truncates. -/
def X10RelativeDimEvent_as_bit_str_and_qty (e : X10RelativeDimEvent) : List Bool × Nat :=
  (PREAMBLE ++ x10_bit_str e.house_code ++
     x10_bit_str (if e.dim < 0 then X10_FN_DIM else X10_FN_BRIGHT) ++ [true, false],
   (pyTrunc ((RELATIVE_DIM_STEPS : ℚ) * |e.dim|)).toNat)

/-- `X10AbsoluteDimEvent_as_bit_str_and_qty`: `dim = int(self.dim * 31)`, then
`x10_bit_str(dim & 0xF)` and Preset Dim 1 iff `dim & 0x10`.  `dim ≥ 0` in the
data model, so the `Int.toNat` below agrees with Python's bitwise tests. -/
def X10AbsoluteDimEvent_as_bit_str_and_qty (e : X10AbsoluteDimEvent) : List Bool × Nat :=
  let d : Nat := (pyTrunc (e.dim * 31)).toNat
  (PREAMBLE ++ x10_bit_str (d &&& 0xF) ++
     x10_bit_str (if d &&& 0x10 != 0 then X10_FN_PRESET_DIM_1 else X10_FN_PRESET_DIM_0) ++ [true, false], 2)

/-- `X10ExtendedCodeEvent_as_bit_str_and_qty`. -/
def X10ExtendedCodeEvent_as_bit_str_and_qty (e : X10ExtendedCodeEvent) : List Bool × Nat :=
  (PREAMBLE ++ x10_bit_str e.house_code ++ x10_bit_str X10_FN_EXT_CODE ++ [true, false] ++
     x10_bit_str e.unit_code ++
     x10_bit_str (e.data_byte >>> 4) ++ x10_bit_str e.data_byte ++
     x10_bit_str (e.cmd_byte >>> 4) ++ x10_bit_str e.cmd_byte, 2)

/-- Dispatch of `as_bit_str_and_qty` over the five monkey-patched classes. -/
def as_bit_str_and_qty (e : X10Event) : List Bool × Nat :=
  match e with
  | .address a => X10AddressEvent_as_bit_str_and_qty a
  | .functionEv f => X10FunctionEvent_as_bit_str_and_qty f
  | .relativeDim r => X10RelativeDimEvent_as_bit_str_and_qty r
  | .absoluteDim d => X10AbsoluteDimEvent_as_bit_str_and_qty d
  | .extendedCode x => X10ExtendedCodeEvent_as_bit_str_and_qty x

/-- `X10Event_as_bit_str`: `bit_str * qty`. -/
def X10Event_as_bit_str (e : X10Event) : List Bool :=
  repL (as_bit_str_and_qty e).2 (as_bit_str_and_qty e).1

/-- `X10Event_as_tw523_echo_bit_str` (Address / Function / AbsoluteDim): one copy. -/
def X10Event_as_tw523_echo_bit_str (e : X10Event) : List Bool :=
  (as_bit_str_and_qty e).1

/-- `X10RelativeDimEvent_as_tw523_echo_bit_str`: `bit_str * ((2 + qty) // 3)`. -/
def X10RelativeDimEvent_as_tw523_echo_bit_str (e : X10RelativeDimEvent) : List Bool :=
  repL ((2 + (X10RelativeDimEvent_as_bit_str_and_qty e).2) / 3) (X10RelativeDimEvent_as_bit_str_and_qty e).1

/-- `X10ExtendedCodeEvent_as_tw523_echo_bit_str`: returns `bit_str * 2` where
`bit_str` is the full 62-half-cycle extended frame. -/
def X10ExtendedCodeEvent_as_tw523_echo_bit_str (e : X10ExtendedCodeEvent) : List Bool :=
  repL 2 (X10ExtendedCodeEvent_as_bit_str_and_qty e).1

/-!
## BitEventProcessor (`pyx10/interface/tw523.py`)

`_get_bit` pops two half-cycle bits and yields `1` (`'10'`), `0` (`'01'`) or
`None` (anything else); popping from an exhausted deque raises `IndexError`,
modelled by the outer `Option` (`none` = an exception escaped).
-/

/-- One event emission, or one pulse handed to a per-house `DimAccumulator`. -/
inductive BOut where
  | ev (e : X10Event)
  | pulse (house_code : Nat) (delta : Int)
  deriving DecidableEq, Repr

/-- Result of `_process_frame` on one buffered frame: an uncaught exception,
a silently discarded frame, or one output. -/
inductive FrameEffect where
  | crash
  | silent
  | out (o : BOut)
  deriving DecidableEq, Repr

/-- `BitEventProcessor._get_bit`. -/
def getBitM : List Bool → Option (Option Bool × List Bool)
  | true :: false :: r => some (some true, r)
  | false :: true :: r => some (some false, r)
  | _ :: _ :: r => some (none, r)
  | _ => none

/-- `b and w or 0` for the result of `_get_bit` (`None and w or 0` is `0`). -/
def nibWeight (b : Option Bool) (w : Nat) : Nat :=
  if b = some true then w else 0

/-- `BitEventProcessor._get_nibble`. -/
def getNibbleM (l : List Bool) : Option (Nat × List Bool) :=
  match getBitM l with
  | none => none
  | some (b3, l) =>
    match getBitM l with
    | none => none
    | some (b2, l) =>
      match getBitM l with
      | none => none
      | some (b1, l) =>
        match getBitM l with
        | none => none
        | some (b0, l) =>
          some (nibWeight b3 8 + nibWeight b2 4 + nibWeight b1 2 + nibWeight b0 1, l)

/-- The dispatch part of `_process_frame`, from the preamble check onward.
`copies` is `bit_copies`; it is only read in all-bits mode (in normal mode the
Python variable is unassigned and unread, so the argument value is irrelevant
there and `1` is passed). -/
def processDispatch (return_all_bits : Bool) (copies : Nat) (bits : List Bool) : FrameEffect :=
  match bits with
  | b0 :: b1 :: b2 :: b3 :: rest =>
    if [b0, b1, b2, b3] ≠ PREAMBLE then .silent
    else
      match getNibbleM rest with
      | none => .crash
      | some (house_code, r1) =>
        match getNibbleM r1 with
        | none => .crash
        | some (key_code, r2) =>
          match getBitM r2 with
          | none => .crash
          | some (d16, r3) =>
            if d16 ≠ some true ∧ r3 = [] then
              .out (.ev (.address ⟨house_code, key_code⟩))
            else if d16 ≠ some true then
              .out (.ev (.address ⟨house_code, key_code⟩))
            else if (key_code = X10_FN_DIM ∨ key_code = X10_FN_BRIGHT) ∧ r3 = [] then
              if return_all_bits then
                let dq : Int := min (copies : Int) (RELATIVE_DIM_STEPS : Int)
                let dq : Int := if key_code = X10_FN_DIM then -dq else dq
                .out (.ev (.relativeDim ⟨house_code, (dq : ℚ) / (RELATIVE_DIM_STEPS : ℚ)⟩))
              else
                .out (.pulse house_code (if key_code = X10_FN_DIM then -1 else 1))
            else if key_code = X10_FN_EXT_CODE ∧ r3.length = 40 then
              match getNibbleM r3 with
              | none => .crash
              | some (unit_code, r4) =>
                match getNibbleM r4 with
                | none => .crash
                | some (dhi, r5) =>
                  match getNibbleM r5 with
                  | none => .crash
                  | some (dlo, r6) =>
                    match getNibbleM r6 with
                    | none => .crash
                    | some (chi, r7) =>
                      match getNibbleM r7 with
                      | none => .crash
                      | some (clo, _) =>
                        .out (.ev (.extendedCode ⟨house_code, unit_code, dhi <<< 4 ||| dlo, chi <<< 4 ||| clo⟩))
            else if (key_code = X10_FN_PRESET_DIM_0 ∨ key_code = X10_FN_PRESET_DIM_1) ∧ r3 = [] then
              .out (.ev (.absoluteDim ⟨(((if key_code = X10_FN_PRESET_DIM_1 then 16 else 0) + house_code : Nat) : ℚ) / 31⟩))
            else if r3 = [] then
              .out (.ev (.functionEv ⟨house_code, key_code⟩))
            else
              .out (.ev (.functionEv ⟨house_code, key_code⟩))
  | _ => .crash

/-- Python's non-overlapping, left-greedy `bit_str.count('1110')`. -/
def count1110 : List Bool → Nat
  | true :: true :: true :: false :: rest => count1110 rest + 1
  | _ :: rest => count1110 rest
  | [] => 0

/-- Python's `bit_str.endswith('1110')`. -/
def endsWith1110 (l : List Bool) : Bool :=
  l.reverse.take 4 == [false, true, true, true]

/-- `_process_frame` after the odd-length padding has been applied. -/
def processFramePadded (return_all_bits : Bool) (bits : List Bool) : FrameEffect :=
  if bits.length < 22 then .silent
  else if return_all_bits then
    let bs := if endsWith1110 bits then bits.take (bits.length - 4) else bits
    let start_count := count1110 bs
    if start_count = 0 then .crash  -- ZeroDivisionError in `len(bit_str) // start_count`
    else
      let one_copy := bs.take (bs.length / start_count)
      if bs.take 4 == PREAMBLE && bs == repL start_count one_copy then
        processDispatch true start_count one_copy
      else .silent
  else processDispatch false 1 bits

/-- `BitEventProcessor._process_frame` (`if len(self._bits) % 2: append('0')`). -/
def processFrame (return_all_bits : Bool) (bits : List Bool) : FrameEffect :=
  processFramePadded return_all_bits (if bits.length % 2 = 1 then bits ++ [false] else bits)

/-- The mutable state of a `BitEventProcessor`: `_bits` and `_zeroes`. -/
structure BState where
  bits : List Bool
  zeroes : Nat
  deriving DecidableEq, Repr

def bep0 : BState := ⟨[], 0⟩

/-- `BitEventProcessor.feed_bit`; `none` = an exception escaped. -/
def bepFeedBit (return_all_bits : Bool) (st : BState) (b : Bool) : Option (BState × List BOut) :=
  if b = false then
    if st.bits = [] then some (st, [])
    else if 6 ≤ st.zeroes + 1 then
      match processFrame return_all_bits st.bits with
      | .crash => none
      | .silent => some (bep0, [])
      | .out o => some (bep0, [o])
    else some (⟨st.bits, st.zeroes + 1⟩, [])
  else some (⟨st.bits ++ List.replicate st.zeroes false ++ [true], 0⟩, [])

/-- Feed a list of half-cycle bits, collecting all outputs in order. -/
def bepFeedBits (return_all_bits : Bool) (st : BState) : List Bool → Option (BState × List BOut)
  | [] => some (st, [])
  | b :: r =>
    match bepFeedBit return_all_bits st b with
    | none => none
    | some (st', outs) =>
      match bepFeedBits return_all_bits st' r with
      | none => none
      | some (st'', outs') => some (st'', outs ++ outs')

/-!
## BitStringMatcher (`pyx10/interface/tashtenhat.py`)
-/

/-- `INTERFRAME_ZEROES = 6`. -/
def INTERFRAME_ZEROES : Nat := 6

/-- The `expected_bit_str` preprocessing in `BitStringMatcher.__init__`:
ones are kept and reset the zero counter; zeros are kept only while fewer
than `INTERFRAME_ZEROES` consecutive zeros have been kept. -/
def bsmBuildExpected : Nat → List Bool → List Bool
  | _, [] => []
  | _, true :: r => true :: bsmBuildExpected 0 r
  | zeroes, false :: r =>
    if zeroes < INTERFRAME_ZEROES then false :: bsmBuildExpected (zeroes + 1) r
    else bsmBuildExpected zeroes r

/-- Mutable state of a `BitStringMatcher`: `_expected_bits`, `_held_bits`,
`_zeroes` and whether `_event` is set. -/
structure MState where
  expected : List Bool
  held : List Bool
  zeroes : Nat
  matched : Bool
  deriving DecidableEq, Repr

/-- A freshly constructed `BitStringMatcher(expected_bit_str, ...)`. -/
def bsmInit (expected_bit_str : List Bool) : MState :=
  ⟨bsmBuildExpected 0 expected_bit_str, [], 0, false⟩

/-- `BitStringMatcher.feed_bit`; the second component is the list of bits
passed to `_passthrough_feed_bit` during the call, in order. -/
def bsmFeedBit (st : MState) (b : Bool) : MState × List Bool :=
  if st.matched then (st, [b])
  else
    let hz : List Bool × Nat :=
      if b then (st.held ++ [true], 0)
      else if st.zeroes < INTERFRAME_ZEROES then (st.held ++ [false], st.zeroes + 1)
      else (st.held, st.zeroes)
    let n := st.expected.length
    let out := hz.1.take (hz.1.length - n)
    let held := hz.1.drop (hz.1.length - n)
    (⟨st.expected, held, hz.2, held == st.expected⟩, out)

/-- Feed a list of bits, concatenating all passthrough output in order. -/
def bsmFeedBits (st : MState) : List Bool → MState × List Bool
  | [] => (st, [])
  | b :: r =>
    let so := bsmFeedBit st b
    let so' := bsmFeedBits so.1 r
    (so'.1, so.2 ++ so'.2)

/-- `BitStringMatcher.wait` at its timeout (no match): drain the held bits
through the passthrough sink in order and set the event.  When the matcher
has already matched, `wait` returns immediately and passes nothing through. -/
def bsmWait (st : MState) : MState × List Bool :=
  if st.matched then (st, [])
  else (⟨st.expected, [], st.zeroes, true⟩, st.held)

/-!
## TashTenHat drivers (`pyx10/interface/tashtenhat.py`)

The monkey-patched attributes that the packaged modules
(`pyx10/interface/tw523.py` and `pyx10/interface/cm11a.py`) attach to each of
the five event classes at import time, as an explicit lookup table.
-/

/-- Names of the attributes looked up dynamically by the drivers. -/
inductive PyAttrName where
  | as_bit_str_and_qty
  | as_bit_str
  | as_tw523_echo_bit_str
  | as_xtb523_echo_bit_str
  | as_cm11a_packet
  | as_output_bit_str
  | as_tw523_echo_bit_str_and_qty
  | as_xtb523_echo_bit_str_and_qty
  | as_xtb523allbits_echo_bit_str_and_qty
  deriving DecidableEq, Repr

/-- The attributes attached to `X10AddressEvent` by the packaged modules. -/
def X10AddressEvent_attrs : List PyAttrName :=
  [.as_bit_str_and_qty, .as_bit_str, .as_tw523_echo_bit_str, .as_xtb523_echo_bit_str, .as_cm11a_packet]

/-- The attributes attached to `X10FunctionEvent`. -/
def X10FunctionEvent_attrs : List PyAttrName :=
  [.as_bit_str_and_qty, .as_bit_str, .as_tw523_echo_bit_str, .as_xtb523_echo_bit_str, .as_cm11a_packet]

/-- The attributes attached to `X10RelativeDimEvent`. -/
def X10RelativeDimEvent_attrs : List PyAttrName :=
  [.as_bit_str_and_qty, .as_bit_str, .as_tw523_echo_bit_str, .as_xtb523_echo_bit_str, .as_cm11a_packet]

/-- The attributes attached to `X10AbsoluteDimEvent`. -/
def X10AbsoluteDimEvent_attrs : List PyAttrName :=
  [.as_bit_str_and_qty, .as_bit_str, .as_tw523_echo_bit_str, .as_xtb523_echo_bit_str, .as_cm11a_packet]

/-- The attributes attached to `X10ExtendedCodeEvent`. -/
def X10ExtendedCodeEvent_attrs : List PyAttrName :=
  [.as_bit_str_and_qty, .as_bit_str, .as_tw523_echo_bit_str, .as_xtb523_echo_bit_str, .as_cm11a_packet]

/-- `hasattr(event, name)` for an X10 event value. -/
def pyHasattr (e : X10Event) (a : PyAttrName) : Bool :=
  match e with
  | .address _ => X10AddressEvent_attrs.contains a
  | .functionEv _ => X10FunctionEvent_attrs.contains a
  | .relativeDim _ => X10RelativeDimEvent_attrs.contains a
  | .absoluteDim _ => X10AbsoluteDimEvent_attrs.contains a
  | .extendedCode _ => X10ExtendedCodeEvent_attrs.contains a

/-- `bit_str_to_bytes`: pack a bit string into bytes, left-justified,
MSB first. -/
def bit_str_to_bytes (s : List Bool) : List Nat :=
  (List.range ((s.length + 7) / 8)).map (fun i =>
    (List.range 8).foldl (fun acc j =>
      if s.getD (8 * i + j) false then acc ||| (128 >>> j) else acc) 0)

/-- Exceptions a TashTenHat outbound handler can raise. -/
inductive TthError where
  | valueError (idx : Nat)      -- event at `idx` has no `as_output_bit_str`
  | attributeError (idx : Nat)  -- `getattr(event, echo_..._fn_name)` failed
  deriving DecidableEq, Repr

/-- Observable trace of one outbound-handler call: the exception (if any),
every byte written to the I²C device, and every event put on `events_in`. -/
structure TthTrace where
  raised : Option TthError
  written : List Nat
  enqueued : List X10Event
  deriving DecidableEq, Repr

/-- `getattr(event, 'as_output_bit_str')()`: no packaged module defines this
attribute on any event class, so the lookup table is empty; the `getD []`
default is unreachable through `_handle_event_batch_out*` because both
handlers check `hasattr(event, 'as_output_bit_str')` first. -/
def pyGetOutputBitStr (_ : X10Event) : Option (List Bool) := none

/-- The write/echo retry loop of `_handle_event_batch_out_with_echo`
(`for attempt in range(MAX_FAILURES)`), parametrised by an oracle telling
whether `self._bsm.wait(ECHO_TIMEOUT)` succeeded on a given attempt.  Each
attempt writes the packed output plus the `b'\x00'` terminator; the first
successful attempt enqueues the whole batch. -/
def tthEchoAttempts (outBytes : List Nat) (batch : List X10Event) (echoOk : Nat → Bool) :
    Nat → Nat → List Nat × List X10Event
  | _, 0 => ([], [])
  | attempt, n + 1 =>
    if echoOk attempt then (outBytes, batch)
    else
      let rest := tthEchoAttempts outBytes batch echoOk (attempt + 1) n
      (outBytes ++ rest.1, rest.2)

/-- `MAX_FAILURES = 5` (tashtenhat). -/
def TTH_MAX_FAILURES : Nat := 5

/-- Join bit strings with `'0' * INTERFRAME_ZEROES` between them. -/
def joinWithGap : List (List Bool) → List Bool
  | [] => []
  | [s] => s
  | s :: r => s ++ List.replicate INTERFRAME_ZEROES false ++ joinWithGap r

/-- `TashTenHat._handle_event_batch_out_with_echo`.  The serialization check
loop runs before anything is written: if any event lacks `as_output_bit_str`
a `ValueError` is raised for the first such event and the handler exits with
no I/O.  (With the packaged attribute tables the post-check code is reachable
only for an empty batch, whose joined bit strings are empty.) -/
def tth_handle_event_batch_out_with_echo (echoName : PyAttrName) (echoOk : Nat → Bool)
    (event_batch : List X10Event) : TthTrace :=
  match event_batch.findIdx? (fun e => !(pyHasattr e PyAttrName.as_output_bit_str)) with
  | some i => ⟨some (.valueError i), [], []⟩
  | none =>
    match event_batch.findIdx? (fun e => !(pyHasattr e echoName)) with
    | some i => ⟨some (.attributeError i), [], []⟩  -- raised while building echo_bit_str
    | none =>
      let output_bit_str := joinWithGap (event_batch.map (fun e => (pyGetOutputBitStr e).getD []))
      let wr := tthEchoAttempts (bit_str_to_bytes output_bit_str ++ [0]) event_batch echoOk 0 TTH_MAX_FAILURES
      ⟨none, wr.1, wr.2⟩

/-- `TashTenHatWithPl513._handle_event_batch_out`: same serialization check,
then a single write and an unconditional local echo of the whole batch. -/
def pl513_handle_event_batch_out (event_batch : List X10Event) : TthTrace :=
  match event_batch.findIdx? (fun e => !(pyHasattr e PyAttrName.as_output_bit_str)) with
  | some i => ⟨some (.valueError i), [], []⟩
  | none =>
    let output_bit_str := joinWithGap (event_batch.map (fun e => (pyGetOutputBitStr e).getD []))
    ⟨none, bit_str_to_bytes output_bit_str ++ [0], event_batch⟩

/-!
## CM11A driver (`pyx10/interface/cm11a.py`)
-/

def CM11A_POLL_RECV : Nat := 0x5A
def CM11A_POLL_TIME : Nat := 0xA5
def CM11A_READY_RESP : Nat := 0x55
def MAX_CHECKSUM_FAILURES : Nat := 5

/-- `X10AddressEvent_as_cm11a_packet`. -/
def X10AddressEvent_as_cm11a_packet (e : X10AddressEvent) : List Nat :=
  [0x04, (e.house_code &&& 0xF) <<< 4 ||| (e.unit_code &&& 0xF)]

/-- `X10FunctionEvent_as_cm11a_packet`. -/
def X10FunctionEvent_as_cm11a_packet (e : X10FunctionEvent) : List Nat :=
  [0x06, (e.house_code &&& 0xF) <<< 4 ||| (e.function &&& 0xF)]

/-- `X10RelativeDimEvent_as_cm11a_packet`: the first byte is
`0x06 | (int(abs(self.dim) * 22) & 0x1F) << 3` — Python `int` truncates. -/
def X10RelativeDimEvent_as_cm11a_packet (e : X10RelativeDimEvent) : List Nat :=
  [0x06 ||| ((pyTrunc (|e.dim| * 22)).toNat &&& 0x1F) <<< 3,
   (e.house_code &&& 0xF) <<< 4 ||| (if e.dim < 0 then X10_FN_DIM else X10_FN_BRIGHT)]

/-- `X10AbsoluteDimEvent_as_cm11a_packet` (`dim = int(self.dim * 31)`;
`dim ≥ 0` in the data model, so `Int.toNat` agrees with Python's bit tests). -/
def X10AbsoluteDimEvent_as_cm11a_packet (e : X10AbsoluteDimEvent) : List Nat :=
  let d : Nat := (pyTrunc (e.dim * 31)).toNat
  [0x06, (d &&& 0xF) <<< 4 ||| (if d &&& 0x10 != 0 then X10_FN_PRESET_DIM_1 else X10_FN_PRESET_DIM_0)]

/-- `X10ExtendedCodeEvent_as_cm11a_packet`. -/
def X10ExtendedCodeEvent_as_cm11a_packet (e : X10ExtendedCodeEvent) : List Nat :=
  [0x07, (e.house_code &&& 0xF) <<< 4 ||| X10_FN_EXT_CODE,
   e.unit_code &&& 0xF, e.data_byte &&& 0xFF, e.cmd_byte &&& 0xFF]

/-- Outcome of the checksum loop in `CM11A._handle_event`
(`for _ in range(MAX_CHECKSUM_FAILURES)`).  Each constructor carries the
total number of packet writes performed. -/
inductive CsPhase where
  | ok (writes : Nat) (rest : List (Option Nat))  -- checksum confirmed; `break`
  | noResp (writes : Nat)                         -- `Empty` on the first read; `return False`
  | interrupted (b : Nat) (writes : Nat)          -- `raise InterruptedByPoll(b)`
  | unprompted (writes : Nat)                     -- second byte differed; `return False`
  | tooMany (writes : Nat)                        -- loop exhausted; `return False`
  deriving DecidableEq, Repr

/-- Serial reads are modelled as a list of `Option Nat`: `some b` is a byte,
`none` is a `queue.Empty` timeout (a stream that runs out also reads as
timeouts). -/
def srRead (stream : List (Option Nat)) : Option Nat × List (Option Nat) :=
  match stream with
  | [] => (none, [])
  | x :: r => (x, r)

/-- The checksum loop of `CM11A._handle_event`: write the packet, read the
response within `POLL_WAIT_TIME`; `Empty` aborts, the checksum breaks out,
a repeated poll byte raises `InterruptedByPoll`, a poll byte followed by a
different byte aborts, and a poll byte followed by `Empty` (or any non-poll
non-checksum byte) retries. -/
def cm11aChecksumLoop (checksum : Nat) : Nat → Nat → List (Option Nat) → CsPhase
  | writes, 0, _ => .tooMany writes
  | writes, n + 1, stream =>
    let rr := srRead stream
    match rr.1 with
    | none => .noResp (writes + 1)
    | some response =>
      if response = checksum then .ok (writes + 1) rr.2
      else if response = CM11A_POLL_RECV ∨ response = CM11A_POLL_TIME then
        let rr2 := srRead rr.2
        match rr2.1 with
        | some response2 =>
          if response2 = response then .interrupted response (writes + 1)
          else .unprompted (writes + 1)
        | none => cm11aChecksumLoop checksum (writes + 1) n rr2.2
      else cm11aChecksumLoop checksum (writes + 1) n rr.2

/-- Result of a whole `CM11A._handle_event` call. -/
inductive HandleEventResult where
  | returnedTrue (enqueued : X10Event)
  | returnedFalse
  | raisedPoll (b : Nat)
  deriving DecidableEq, Repr

/-- `CM11A._handle_event` after the packet has been built: checksum loop,
then the `0x00` confirmation, the ready response, and the local echo. -/
def cm11a_handle_event_core (ev : X10Event) (packet : List Nat) (stream : List (Option Nat)) :
    HandleEventResult :=
  let checksum := packet.foldl (· + ·) 0 &&& 0xFF
  match cm11aChecksumLoop checksum 0 MAX_CHECKSUM_FAILURES stream with
  | .noResp _ => .returnedFalse
  | .interrupted b _ => .raisedPoll b
  | .unprompted _ => .returnedFalse
  | .tooMany _ => .returnedFalse
  | .ok _ rest =>
    let rr := srRead rest
    match rr.1 with
    | none => .returnedFalse
    | some response =>
      if (response = CM11A_POLL_RECV ∨ response = CM11A_POLL_TIME) ∧ response = checksum then
        .raisedPoll response
      else if response ≠ CM11A_READY_RESP then .returnedFalse
      else .returnedTrue ev

/-!
## FIFO command processor (`pyx10/app/fifoserver.py`)

The command language is modelled over ASCII character lists.  The Python
regexes are transcribed as deterministic parsers over the delimited segments
of a token; backtracking never crosses the literal delimiters `(`, `,`, `)`,
so the parsers below accept exactly the language of the anchored regexes.
-/

def pyIsDigit (c : Char) : Bool := '0' ≤ c && c ≤ '9'

def digitVal (c : Char) : Nat := c.toNat - '0'.toNat

def pyIsHexDigit (c : Char) : Bool := pyIsDigit c || ('A' ≤ c && c ≤ 'F')

def hexVal (c : Char) : Nat := if pyIsDigit c then digitVal c else c.toNat - 'A'.toNat + 10

def isHouseLetter (c : Char) : Bool := 'A' ≤ c && c ≤ 'P'

/-- `X10_HOUSE_CODES[letter]` for `letter ∈ 'A'..'P'`. -/
def houseCodeOf (c : Char) : Nat := X10_CODES.getD (c.toNat - 'A'.toNat) 0

/-- `X10_UNIT_CODES[n]` for `n ∈ 1..16`. -/
def unitCodeOf (n : Nat) : Nat := X10_CODES.getD (n - 1) 0

/-- The unit-number pattern `0*1[0-6]|0*[1-9]` (anchored), returning the
value of `int(match)`. -/
def unitNumMatch (s : List Char) : Option Nat :=
  match s.dropWhile (fun c => c = '0') with
  | ['1', d] => if '0' ≤ d && d ≤ '6' then some (10 + digitVal d) else none
  | [d] => if '1' ≤ d && d ≤ '9' then some (digitVal d) else none
  | _ => none

/-- `REO_TARGET = ^([A-P])?(0*1[0-6]|0*[1-9])?$`: an optional house letter
followed by an optional unit number. -/
def matchTarget (t : List Char) : Option (Option Char × Option Nat) :=
  match t with
  | [] => some (none, none)
  | c :: rest =>
    if isHouseLetter c then
      if rest = [] then some (some c, none)
      else
        match unitNumMatch rest with
        | some u => some (some c, some u)
        | none => none
    else
      match unitNumMatch t with
      | some u => some (none, some u)
      | none => none

/-- `SIMPLE_COMMANDS`, keyed by the token with `-` and `_` removed. -/
def SIMPLE_COMMANDS : List (List Char × Nat) :=
  [(['O', 'N'], X10_FN_ON),
   (['O', 'F', 'F'], X10_FN_OFF),
   (['A', 'L', 'L', 'O', 'F', 'F'], X10_FN_ALL_OFF),
   (['A', 'L', 'L', 'U', 'N', 'I', 'T', 'S', 'O', 'F', 'F'], X10_FN_ALL_OFF),
   (['A', 'L', 'L', 'L', 'I', 'G', 'H', 'T', 'S', 'O', 'N'], X10_FN_ALL_LIGHTS_ON),
   (['A', 'L', 'L', 'L', 'I', 'G', 'H', 'T', 'S', 'O', 'F', 'F'], X10_FN_ALL_LIGHTS_OFF),
   (['D', 'I', 'M'], X10_FN_DIM),
   (['B', 'R', 'I', 'G', 'H', 'T'], X10_FN_BRIGHT),
   (['H', 'A', 'I', 'L'], X10_FN_HAIL_REQ),
   (['S', 'T', 'A', 'T', 'U', 'S'], X10_FN_STATUS_REQ)]

/-- The percentage pattern `0*100|0*\d{1,2}` (anchored), returning the value. -/
def percentNumMatch (s : List Char) : Option Nat :=
  if s = [] then none
  else if s.all pyIsDigit then
    match s.dropWhile (fun c => c = '0') with
    | [] => some 0
    | ['1', '0', '0'] => some 100
    | [d] => some (digitVal d)
    | [d1, d2] => some (10 * digitVal d1 + digitVal d2)
    | _ => none
  else none

/-- `REO_REL_DIM = ^DIM\(([+-](?:0*100|0*\d{1,2}))%?\)$`, returning the signed
value of `int(group(1))`. -/
def matchRelDim (t : List Char) : Option Int :=
  match t with
  | 'D' :: 'I' :: 'M' :: '(' :: sign :: rest =>
    if sign = '+' ∨ sign = '-' then
      let num := rest.takeWhile pyIsDigit
      let tail := rest.dropWhile pyIsDigit
      if tail = [')'] ∨ tail = ['%', ')'] then
        match percentNumMatch num with
        | some v => some (if sign = '-' then -(v : Int) else (v : Int))
        | none => none
      else none
    else none
  | _ => none

/-- `REO_ABS_DIM = ^DIM\((0*100|0*\d{1,2})%?\)$`. -/
def matchAbsDim (t : List Char) : Option Nat :=
  match t with
  | 'D' :: 'I' :: 'M' :: '(' :: rest =>
    let num := rest.takeWhile pyIsDigit
    let tail := rest.dropWhile pyIsDigit
    if tail = [')'] ∨ tail = ['%', ')'] then percentNumMatch num
    else none
  | _ => none

/-- The hex-argument core `([0-9A-F]{1,2})H?` (anchored), returning the value
of the captured digits. -/
def hexCoreMatch (s : List Char) : Option Nat :=
  match s with
  | [a] => if pyIsHexDigit a then some (hexVal a) else none
  | [a, b] =>
    if pyIsHexDigit a then
      if pyIsHexDigit b then some (16 * hexVal a + hexVal b)
      else if b = 'H' then some (hexVal a)
      else none
    else none
  | [a, b, c] =>
    if pyIsHexDigit a && pyIsHexDigit b && (c = 'H') then some (16 * hexVal a + hexVal b)
    else none
  | _ => none

/-- One hex argument `(?:0X)?([0-9A-F]{1,2})H?` (anchored; the token is
upper-cased before matching, so `0[Xx]` is `0X`).  The regex first tries to
consume a literal `0X`, backtracking to the bare form if the remainder fails. -/
def argHexMatch (s : List Char) : Option Nat :=
  match s with
  | '0' :: 'X' :: rest =>
    match hexCoreMatch rest with
    | some v => some v
    | none => hexCoreMatch s
  | _ => hexCoreMatch s

/-- `REO_EXT_CODE =
`^EXT[_-]?CODE\((0*1[0-6]|0*[1-9]),(?:0X)?([0-9A-F]{1,2})H?(?:,(?:0[Xx])?([0-9A-F]{1,2})H?)\)$`.
The third group's wrapper `(?:,...)` carries no `?`, so the second hex
argument is mandatory; the result's third component is the third capture
group, typed as an `Option` exactly as `m.groups()` delivers it. -/
def matchExtCode (t : List Char) : Option (Nat × Nat × Option Nat) :=
  match t with
  | 'E' :: 'X' :: 'T' :: rest0 =>
    let rest1 := match rest0 with
      | '-' :: r => r
      | '_' :: r => r
      | r => r
    match rest1 with
    | 'C' :: 'O' :: 'D' :: 'E' :: '(' :: rest2 =>
      let seg1 := rest2.takeWhile (fun c => c ≠ ',')
      match rest2.dropWhile (fun c => c ≠ ',') with
      | ',' :: rest3 =>
        let seg2 := rest3.takeWhile (fun c => c ≠ ',')
        match rest3.dropWhile (fun c => c ≠ ',') with
        | ',' :: rest4 =>
          let seg3 := rest4.takeWhile (fun c => c ≠ ')')
          match rest4.dropWhile (fun c => c ≠ ')') with
          | [')'] =>
            match unitNumMatch seg1, argHexMatch seg2, argHexMatch seg3 with
            | some u, some a1, some a2 => some (u, a1, some a2)
            | _, _, _ => none
          | _ => none
        | _ => none
      | _ => none
    | _ => none
  | _ => none

/-- One token of `CommandProcessor.process_command`'s `for cmd in cmds` loop:
`some (house', batch')` continues, `none` is the `else` branch (invalid
command, `break`). -/
def processToken (house : Nat) (batch : List X10Event) (cmd : List Char) :
    Option (Nat × List X10Event) :=
  if cmd = [] then some (house, batch)
  else
    match matchTarget cmd with
    | some hu =>
      let house' := match hu.1 with
        | some c => houseCodeOf c
        | none => house
      let batch' := match hu.2 with
        | some u => batch ++ [X10Event.address ⟨house', unitCodeOf u⟩]
        | none => batch
      some (house', batch')
    | none =>
      match SIMPLE_COMMANDS.lookup (cmd.filter (fun c => c != '-' && c != '_')) with
      | some fn => some (house, batch ++ [X10Event.functionEv ⟨house, fn⟩])
      | none =>
        match matchRelDim cmd with
        | some v => some (house, batch ++ [X10Event.relativeDim ⟨house, (v : ℚ) / 100⟩])
        | none =>
          match matchAbsDim cmd with
          | some v => some (house, batch ++ [X10Event.absoluteDim ⟨(v : ℚ) / 100⟩])
          | none =>
            match matchExtCode cmd with
            | some (u, first, second) =>
              some (house, batch ++ [X10Event.extendedCode
                ⟨house, unitCodeOf u,
                 match second with
                 | none => 0
                 | some _ => first,
                 match second with
                 | none => first
                 | some s => s⟩])
            | none => none

/-- The token loop with its `for`/`else`: `(house', some batch)` means the
loop completed and `put_batch(batch)` was called; `(house', none)` means an
invalid token broke out and nothing was submitted. -/
def processTokens (house : Nat) (batch : List X10Event) :
    List (List Char) → Nat × Option (List X10Event)
  | [] => (house, some batch)
  | t :: r =>
    match processToken house batch t with
    | some hb => processTokens hb.1 hb.2 r
    | none => (house, none)

def pyIsWS (c : Char) : Bool := c = ' ' || c = '\t'

/-- Python `str.upper()` for ASCII. -/
def pyUpper (c : Char) : Char :=
  if 'a' ≤ c && c ≤ 'z' then Char.ofNat (c.toNat - 32) else c

/-- Python `str.split()` (split on whitespace runs, no empty fields). -/
def splitWSAux : List Char → List Char → List (List Char)
  | acc, [] => if acc = [] then [] else [acc.reverse]
  | acc, c :: r =>
    if pyIsWS c then
      if acc = [] then splitWSAux [] r else acc.reverse :: splitWSAux [] r
    else splitWSAux (c :: acc) r

def splitWS (l : List Char) : List (List Char) := splitWSAux [] l

/-- The tokens `process_command` iterates over: the line is upper-cased and
split on whitespace (`cmd.strip()` after `split()` is a no-op). -/
def commandTokens (line : List Char) : List (List Char) :=
  splitWS (line.map pyUpper)

/-- `CommandProcessor.process_command`: returns the updated `_house_code` and
`some batch` iff `put_batch` was reached. -/
def process_command (house : Nat) (line : List Char) : Nat × Option (List X10Event) :=
  processTokens house [] (commandTokens line)

/-- A token falls through to the `else` branch (invalid command). -/
def invalidToken (t : List Char) : Bool :=
  !(t = [] : Bool) && (matchTarget t).isNone &&
    (SIMPLE_COMMANDS.lookup (t.filter (fun c => c != '-' && c != '_'))).isNone &&
    (matchRelDim t).isNone && (matchAbsDim t).isNone && (matchExtCode t).isNone

/-!
## Auxiliary notions used by the theorems
-/

/-- Number of trailing `false` bits of a half-cycle stream. -/
def trailZ (l : List Bool) : Nat :=
  (l.reverse.takeWhile (fun b => !b)).length

/-- The stream with its trailing `false` bits removed. -/
def dropTrailZ (l : List Bool) : List Bool :=
  (l.reverse.dropWhile (fun b => !b)).reverse

/-- A list made of half-cycle pairs `10` / `01` (the encoding of logical
bits). -/
inductive PairStr : List Bool → Prop where
  | nil : PairStr []
  | one : ∀ l, PairStr l → PairStr ([true, false] ++ l)
  | zero : ∀ l, PairStr l → PairStr ([false, true] ++ l)

/-- While a `BitEventProcessor` consumes this stream from a state with a
non-empty buffer and `z` pending zeroes, the zero counter never reaches 6
(so `_process_frame` is not triggered). -/
def bepRunsOK : Nat → List Bool → Bool
  | _, [] => true
  | _, true :: r => bepRunsOK 0 r
  | z, false :: r => decide (z + 1 < 6) && bepRunsOK (z + 1) r

/-- While a `BitStringMatcher` consumes this stream unmatched with `z`
consecutive zeroes already counted, every fed zero is retained (the counter
stays below `INTERFRAME_ZEROES` when a zero arrives). -/
def bsmRunsOK : Nat → List Bool → Bool
  | _, [] => true
  | _, true :: r => bsmRunsOK 0 r
  | z, false :: r => decide (z < INTERFRAME_ZEROES) && bsmRunsOK (z + 1) r

/-- How one `_process_frame` outcome shows up in `feed_bit`'s behaviour:
an exception (`none`), or the reset state together with the emitted outputs. -/
def runOutcome : FrameEffect → Option (BState × List BOut)
  | .crash => none
  | .silent => some (bep0, [])
  | .out o => some (bep0, [o])

/-- The events of claim C1: any variant other than RelativeDim, with fields
inside the data model's ranges, and (for AbsoluteDim) a dim level that is an
exact multiple of 1/31. -/
def c1Good : X10Event → Prop
  | .address a => a.house_code < 16 ∧ a.unit_code < 16
  | .functionEv f => f.house_code < 16 ∧ f.function < 16 ∧
      f.function ≠ X10_FN_DIM ∧ f.function ≠ X10_FN_BRIGHT ∧
      f.function ≠ X10_FN_PRESET_DIM_0 ∧ f.function ≠ X10_FN_PRESET_DIM_1
  | .relativeDim _ => False
  | .absoluteDim d => ∃ k : Nat, k ≤ 31 ∧ d.dim = (k : ℚ) / 31
  | .extendedCode x => x.house_code < 16 ∧ x.unit_code < 16 ∧
      x.data_byte < 256 ∧ x.cmd_byte < 256

/-!
## Theorems
-/

theorem repL_succ (n : Nat) (l : List Bool) : repL (n + 1) l = l ++ repL n l := rfl

theorem length_repL (n : Nat) (l : List Bool) : (repL n l).length = n * l.length := by
  induction n with
  | zero => simp [repL]
  | succ k ih => simp [repL, ih, Nat.succ_mul, Nat.add_comm]

theorem processToken_isSome (h : Nat) (b : List X10Event) (t : List Char) :
    (processToken h b t).isSome = !invalidToken t := by
  by_cases h0 : t = []
  · simp [processToken, invalidToken, h0]
  · cases h1 : matchTarget t with
    | some v => simp [processToken, invalidToken, h0, h1]
    | none =>
      cases h2 : SIMPLE_COMMANDS.lookup (t.filter (fun c => c != '-' && c != '_')) with
      | some fn => simp [processToken, invalidToken, h0, h1, h2]
      | none =>
        cases h3 : matchRelDim t with
        | some v => simp [processToken, invalidToken, h0, h1, h2, h3]
        | none =>
          cases h4 : matchAbsDim t with
          | some v => simp [processToken, invalidToken, h0, h1, h2, h3, h4]
          | none =>
            cases h5 : matchExtCode t with
            | some v =>
              obtain ⟨u, first, second⟩ := v
              simp [processToken, invalidToken, h0, h1, h2, h3, h4, h5]
            | none => simp [processToken, invalidToken, h0, h1, h2, h3, h4, h5]

theorem processTokens_invalid (ts : List (List Char)) :
    ∀ (h : Nat) (b : List X10Event), (∃ t ∈ ts, invalidToken t = true) →
      (processTokens h b ts).2 = none := by
  induction ts with
  | nil => rintro h b ⟨t, ht, -⟩; exact absurd ht (List.not_mem_nil t)
  | cons t r ih =>
    rintro h b ⟨u, hu, hiu⟩
    rcases List.mem_cons.mp hu with rfl | hur
    · have hnone : processToken h b u = none := by
        have := processToken_isSome h b u
        rw [hiu] at this
        simpa [Option.isSome_iff_exists] using this
      simp [processTokens, hnone]
    · cases hp : processToken h b t with
      | none => simp [processTokens, hp]
      | some hb => simpa [processTokens, hp] using ih hb.1 hb.2 ⟨u, hur, hiu⟩

/-- C10: if any token of a command line is invalid, `process_command` never
reaches `put_batch` — no event from any token of the line is emitted. -/
theorem c10_theorem (house : Nat) (line : List Char)
    (hx : ∃ t ∈ commandTokens line, invalidToken t = true) :
    (process_command house line).2 = none :=
  processTokens_invalid (commandTokens line) house [] hx

theorem c10_witness :
    (process_command 6
      ['A', '1', ' ', 'F', 'R', 'O', 'B', ' ', 'O', 'N']).2 = none :=
  c10_theorem 6 ['A', '1', ' ', 'F', 'R', 'O', 'B', ' ', 'O', 'N']
    ⟨['F', 'R', 'O', 'B'], by decide, by decide⟩

/-- C9: the `REO_EXT_CODE` regex has no `?` on its third group, so
`EXT-CODE(unit,HH)` with a single hex argument is an invalid token — the
whole line is aborted and no ExtendedCode event with `data_byte = 0` is
emitted (the `second is None` handling in `process_command` is dead code) —
while the two-argument form works as specified. -/
theorem c9_theorem :
    (process_command 6
        ['E', 'X', 'T', '-', 'C', 'O', 'D', 'E', '(', '1', ',', '2', 'A', ')'] = (6, none)) ∧
    (process_command 6
        ['E', 'X', 'T', '-', 'C', 'O', 'D', 'E', '(', '1', ',', '2', 'A', ',', '3', 'B', ')']
      = (6, some [X10Event.extendedCode ⟨6, 6, 0x2A, 0x3B⟩])) := by
  exact ⟨rfl, rfl⟩

/-- C6: for the extended-code event House A (0x6), Unit 1 (0x6),
data 0x00, cmd 0x00, `as_tw523_echo_bit_str` is the *full* 62-half-cycle
extended frame repeated twice (124 half-cycles), not the 22-half-cycle
standard frame repeated twice (44 half-cycles) that the spec (and the
module's own docstring, which says TW523 drops the unit code, data byte and
command byte) describes. -/
theorem c6_theorem :
    (X10ExtendedCodeEvent_as_tw523_echo_bit_str ⟨6, 6, 0, 0⟩
        = repL 2 (X10ExtendedCodeEvent_as_bit_str_and_qty ⟨6, 6, 0, 0⟩).1) ∧
    ((X10ExtendedCodeEvent_as_bit_str_and_qty ⟨6, 6, 0, 0⟩).1.length = 62) ∧
    ((X10ExtendedCodeEvent_as_tw523_echo_bit_str ⟨6, 6, 0, 0⟩).length = 124) ∧
    ((repL 2 ((X10ExtendedCodeEvent_as_bit_str_and_qty ⟨6, 6, 0, 0⟩).1.take 22)).length = 44) ∧
    (X10ExtendedCodeEvent_as_tw523_echo_bit_str ⟨6, 6, 0, 0⟩
      ≠ repL 2 ((X10ExtendedCodeEvent_as_bit_str_and_qty ⟨6, 6, 0, 0⟩).1.take 22)) := by
  exact ⟨rfl, rfl, rfl, rfl, by decide⟩

theorem pyTrunc_nonneg (q : ℚ) (h : 0 ≤ q) : pyTrunc q = Int.floor q := by
  simp [pyTrunc, not_lt.mpr h]

/-- C5: the claim's first byte uses `round(|dim|·22)`, but the code computes
`int(abs(self.dim) * 22)`, which truncates.  At `dim = 1/8` (float `0.125`,
exactly representable): `|dim|·22 = 2.75`, the code's magnitude field is `2`
(first byte `0x16`), while the claim's formula gives `3` (first byte `0x1E`). -/
theorem c5_counterexample :
    (X10RelativeDimEvent_as_cm11a_packet ⟨6, 1/8⟩ = [0x16, 0x65]) ∧
    (0x06 ||| (((round (|(1/8 : ℚ)| * 22)).toNat &&& 0x1F) <<< 3) = 0x1E) ∧
    ((0x16 : Nat) ≠ 0x1E) := by
  have habs : |(1/8 : ℚ)| * 22 = 11/4 := by
    rw [abs_of_nonneg (by norm_num : (0:ℚ) ≤ 1/8)]
    norm_num
  have hfl : Int.floor ((11:ℚ)/4) = 2 := by
    rw [Int.floor_eq_iff]
    norm_num
  have hpt : pyTrunc ((11:ℚ)/4) = 2 := by
    rw [pyTrunc_nonneg ((11:ℚ)/4) (by norm_num), hfl]
  have hrd : round ((11:ℚ)/4) = 3 := by
    rw [round_eq, show (11:ℚ)/4 + 1/2 = 13/4 by norm_num, Int.floor_eq_iff]
    norm_num
  have hd : ¬ ((1/8 : ℚ) < 0) := by norm_num
  refine ⟨?_, ?_, by decide⟩
  · simp only [X10RelativeDimEvent_as_cm11a_packet, habs, hpt, hd, if_false]
    decide
  · rw [habs, hrd]
    decide

/-- C5 (amended): the magnitude field of the first CM11A byte for a
RelativeDim event is the *truncated* value `⌊|dim|·22⌋`, masked to 5 bits;
the rest of the packet is as the claim states. -/
theorem c5_theorem (h : Nat) (d : ℚ) (hh : h < 16) (h1 : -1 ≤ d) (h2 : d ≤ 1) :
    X10RelativeDimEvent_as_cm11a_packet ⟨h, d⟩ =
      [0x06 ||| (((Int.floor (|d| * 22)).toNat &&& 0x1F) <<< 3),
       h <<< 4 ||| (if d < 0 then X10_FN_DIM else X10_FN_BRIGHT)] := by
  have hmask : h &&& 0xF = h := by
    revert hh
    revert h
    decide
  have hpt : pyTrunc (|d| * 22) = Int.floor (|d| * 22) :=
    pyTrunc_nonneg (|d| * 22) (by positivity)
  simp only [X10RelativeDimEvent_as_cm11a_packet, hpt, hmask]

theorem c5_witness :
    X10RelativeDimEvent_as_cm11a_packet ⟨6, 1/2⟩ =
      [0x06 ||| (((Int.floor (|(1/2 : ℚ)| * 22)).toNat &&& 0x1F) <<< 3),
       6 <<< 4 ||| (if (1/2 : ℚ) < 0 then X10_FN_DIM else X10_FN_BRIGHT)] :=
  c5_theorem 6 (1/2) (by decide) (by norm_num) (by norm_num)

/-- C7 (amended): in `CM11A._handle_event`'s checksum loop, when the response
byte is a poll token and not the checksum, the driver reads one more byte:
the same byte again raises `InterruptedByPoll`; *no* byte (timeout) is
treated as a bad checksum and the loop retries (rewriting the packet); a
*different* byte makes the driver log and abandon the send (`return False`)
without retrying. -/
theorem c7_theorem (c w n : Nat) (rest : List (Option Nat)) (b : Nat)
    (hb : b = CM11A_POLL_RECV ∨ b = CM11A_POLL_TIME) (hbc : b ≠ c) :
    (cm11aChecksumLoop c w (n + 1) (some b :: some b :: rest) = .interrupted b (w + 1)) ∧
    (∀ b2, b2 ≠ b →
      cm11aChecksumLoop c w (n + 1) (some b :: some b2 :: rest) = .unprompted (w + 1)) ∧
    (cm11aChecksumLoop c w (n + 1) (some b :: none :: rest) = cm11aChecksumLoop c (w + 1) n rest) := by
  refine ⟨?_, ?_, ?_⟩
  · rcases hb with rfl | rfl <;> simp [cm11aChecksumLoop, srRead, hbc]
  · intro b2 hb2
    rcases hb with rfl | rfl <;> simp [cm11aChecksumLoop, srRead, hbc, hb2]
  · rcases hb with rfl | rfl <;> simp [cm11aChecksumLoop, srRead, hbc]

theorem c7_witness :
    (cm11aChecksumLoop 0x66 0 5 [some 0x5A, some 0x5A] = .interrupted 0x5A 1) ∧
    (cm11aChecksumLoop 0x66 0 5 [some 0x5A, some 0x00] = .unprompted 1) ∧
    (cm11aChecksumLoop 0x66 0 5 [some 0x5A, none] = cm11aChecksumLoop 0x66 1 4 []) :=
  ⟨(c7_theorem 0x66 0 4 [] 0x5A (Or.inl rfl) (by decide)).1,
   (c7_theorem 0x66 0 4 [] 0x5A (Or.inl rfl) (by decide)).2.1 0x00 (by decide),
   (c7_theorem 0x66 0 4 [] 0x5A (Or.inl rfl) (by decide)).2.2⟩

/-- C7 (counterexample to the claim as stated): with packet
`[0x06, 0x60]` (checksum `0x66`) and the serial stream
`0x5A, 0x00, 0x66, 0x55`, the code returns failure after a single packet
write (`unprompted 1`); had it treated the exchange as a bad checksum and
looped as the claim states, the very next attempt would have read the
checksum and succeeded (`ok 2`). -/
theorem c7_counterexample :
    (cm11aChecksumLoop 0x66 0 MAX_CHECKSUM_FAILURES
        [some 0x5A, some 0x00, some 0x66, some 0x55] = .unprompted 1) ∧
    (cm11aChecksumLoop 0x66 1 (MAX_CHECKSUM_FAILURES - 1)
        [some 0x66, some 0x55] = .ok 2 [some 0x55]) ∧
    (CsPhase.unprompted 1 ≠ CsPhase.ok 2 [some 0x55]) := by
  exact ⟨rfl, rfl, by decide⟩

theorem pyHasattr_as_output_bit_str (e : X10Event) :
    pyHasattr e PyAttrName.as_output_bit_str = false := by
  cases e <;> rfl

/-- C3: no packaged module attaches `as_output_bit_str` to any of the five
event classes, so for every non-empty batch both
`_handle_event_batch_out_with_echo` (TW523 / XTB-523 / XTB-523-all-bits) and
the PL513 `_handle_event_batch_out` raise `ValueError` on the first event,
before any byte is written to the I²C device and before any event is put on
`events_in`. -/
theorem c3_theorem (batch : List X10Event) (hne : batch ≠ [])
    (echoName : PyAttrName) (echoOk : Nat → Bool) :
    (∀ e : X10Event, pyHasattr e PyAttrName.as_output_bit_str = false) ∧
    (tth_handle_event_batch_out_with_echo echoName echoOk batch
      = ⟨some (.valueError 0), [], []⟩) ∧
    (pl513_handle_event_batch_out batch = ⟨some (.valueError 0), [], []⟩) := by
  refine ⟨pyHasattr_as_output_bit_str, ?_, ?_⟩ <;>
  · cases batch with
    | nil => exact absurd rfl hne
    | cons e r =>
      simp [tth_handle_event_batch_out_with_echo, pl513_handle_event_batch_out,
        List.findIdx?_cons, pyHasattr_as_output_bit_str]

theorem getBitM_some (l : List Bool) (h : 2 ≤ l.length) :
    ∃ b, getBitM l = some (b, l.drop 2) := by
  rcases l with _ | ⟨a, _ | ⟨b, r⟩⟩
  · simp at h
  · simp at h
  · cases a <;> cases b <;> simp [getBitM]

theorem getNibbleM_some (l : List Bool) (h : 8 ≤ l.length) :
    ∃ v, getNibbleM l = some (v, l.drop 8) := by
  obtain ⟨b3, h3⟩ := getBitM_some l (by omega)
  obtain ⟨b2, h2⟩ := getBitM_some (l.drop 2) (by simp; omega)
  obtain ⟨b1, h1⟩ := getBitM_some (l.drop 4) (by simp; omega)
  obtain ⟨b0, h0⟩ := getBitM_some (l.drop 6) (by simp; omega)
  norm_num [List.drop_drop] at h2 h1 h0
  refine ⟨nibWeight b3 8 + nibWeight b2 4 + nibWeight b1 2 + nibWeight b0 1, ?_⟩
  simp only [getNibbleM, h3, h2, h1, h0]

theorem processDispatch_false_cases (bits : List Bool) (hlen : 22 ≤ bits.length) :
    (bits.take 4 ≠ PREAMBLE ∧ processDispatch false 1 bits = .silent) ∨
    (bits.take 4 = PREAMBLE ∧ ∃ o, processDispatch false 1 bits = .out o) := by
  rcases bits with _ | ⟨b0, _ | ⟨b1, _ | ⟨b2, _ | ⟨b3, rest⟩⟩⟩⟩
  · simp at hlen
  · simp at hlen
  · simp at hlen
  · simp at hlen
  · have hrl : 18 ≤ rest.length := by
      simp only [List.length_cons] at hlen
      omega
    have htake : (b0 :: b1 :: b2 :: b3 :: rest).take 4 = [b0, b1, b2, b3] := rfl
    by_cases hp : [b0, b1, b2, b3] = PREAMBLE
    · right
      refine ⟨by rw [htake, hp], ?_⟩
      obtain ⟨house, hn1⟩ := getNibbleM_some rest (by omega)
      obtain ⟨key, hn2⟩ := getNibbleM_some (rest.drop 8) (by simp; omega)
      norm_num [List.drop_drop] at hn2
      obtain ⟨d16, hb16⟩ := getBitM_some (rest.drop 16) (by simp; omega)
      norm_num [List.drop_drop] at hb16
      simp only [processDispatch, hp, ne_eq, not_true_eq_false, if_false, hn1, hn2, hb16]
      by_cases hq1 : d16 ≠ some true ∧ rest.drop 18 = []
      · rw [if_pos hq1]; exact ⟨_, rfl⟩
      rw [if_neg hq1]
      by_cases hq2 : d16 ≠ some true
      · rw [if_pos hq2]; exact ⟨_, rfl⟩
      rw [if_neg hq2]
      by_cases hq3 : (key = X10_FN_DIM ∨ key = X10_FN_BRIGHT) ∧ rest.drop 18 = []
      · rw [if_pos hq3]; exact ⟨_, rfl⟩
      rw [if_neg hq3]
      by_cases hq4 : key = X10_FN_EXT_CODE ∧ (rest.drop 18).length = 40
      · rw [if_pos hq4]
        have hr3len : rest.length - 18 = 40 := by
          have := hq4.2
          simpa using this
        obtain ⟨u, hu⟩ := getNibbleM_some (rest.drop 18) (by simp; omega)
        obtain ⟨dh, hdh⟩ := getNibbleM_some (rest.drop 26) (by simp; omega)
        obtain ⟨dl, hdl⟩ := getNibbleM_some (rest.drop 34) (by simp; omega)
        obtain ⟨ch, hch⟩ := getNibbleM_some (rest.drop 42) (by simp; omega)
        obtain ⟨cl, hcl⟩ := getNibbleM_some (rest.drop 50) (by simp; omega)
        norm_num [List.drop_drop] at hu hdh hdl hch hcl
        simp only [hu, hdh, hdl, hch, hcl]
        exact ⟨_, rfl⟩
      rw [if_neg hq4]
      by_cases hq5 : (key = X10_FN_PRESET_DIM_0 ∨ key = X10_FN_PRESET_DIM_1) ∧ rest.drop 18 = []
      · rw [if_pos hq5]; exact ⟨_, rfl⟩
      rw [if_neg hq5]
      by_cases hq6 : rest.drop 18 = []
      · rw [if_pos hq6]; exact ⟨_, rfl⟩
      rw [if_neg hq6]
      exact ⟨_, rfl⟩
    · left
      refine ⟨by rw [htake]; exact hp, ?_⟩
      simp only [processDispatch, hp, ne_eq, if_true]
      simp

theorem processFramePadded_false_ne_crash (padded : List Bool) :
    processFramePadded false padded ≠ .crash := by
  by_cases hlen : padded.length < 22
  · simp [processFramePadded, hlen]
  · rcases processDispatch_false_cases padded (by omega) with ⟨-, h⟩ | ⟨-, o, h⟩ <;>
      simp [processFramePadded, hlen, h]

theorem processFrame_false_ne_crash (bits : List Bool) :
    processFrame false bits ≠ .crash := by
  unfold processFrame
  exact processFramePadded_false_ne_crash _

theorem processFrame_false_out (bits : List Bool) (hlen : 22 ≤ bits.length)
    (hpre : bits.take 4 = PREAMBLE) :
    ∃ o, processFrame false bits = .out o := by
  unfold processFrame processFramePadded
  set padded := if bits.length % 2 = 1 then bits ++ [false] else bits with hpad
  have hplen : 22 ≤ padded.length := by
    rw [hpad]
    split
    · simp
      omega
    · omega
  have hptake : padded.take 4 = PREAMBLE := by
    rw [hpad]
    split
    · rw [List.take_append_of_le_length (by omega)]
      exact hpre
    · exact hpre
  rcases processDispatch_false_cases padded hplen with ⟨hne, -⟩ | ⟨-, o, h⟩
  · exact absurd hptake hne
  · exact ⟨o, by simp [not_lt.mpr hplen, h]⟩

theorem bepFeedBit_false_ne_none (st : BState) (b : Bool) :
    bepFeedBit false st b ≠ none := by
  unfold bepFeedBit
  by_cases hb : b = false
  · by_cases hempty : st.bits = []
    · simp [hb, hempty]
    · by_cases hz : 6 ≤ st.zeroes + 1
      · cases hpf : processFrame false st.bits with
        | crash => exact absurd hpf (processFrame_false_ne_crash st.bits)
        | silent => simp [hb, hempty, hz, hpf]
        | out o => simp [hb, hempty, hz, hpf]
      · simp [hb, hempty, hz]
  · simp [hb]

theorem bepFeedBits_false_ne_none (input : List Bool) :
    ∀ st : BState, bepFeedBits false st input ≠ none := by
  induction input with
  | nil => intro st; simp [bepFeedBits]
  | cons b r ih =>
    intro st
    unfold bepFeedBits
    cases hfb : bepFeedBit false st b with
    | none => exact absurd hfb (bepFeedBit_false_ne_none st b)
    | some v =>
      obtain ⟨st', outs⟩ := v
      cases hrec : bepFeedBits false st' r with
      | none => exact absurd hrec (ih st')
      | some w => simp [hrec]

/-- C8 (amended): in normal (non-all-bits) mode no exception ever escapes
`feed_bit`, and a buffered frame of at least 22 half-cycles whose preamble is
present — even one in which some logical-bit position holds a half-cycle
pair other than `10` or `01` — is *not* marked invalid: an undefined pair is
silently decoded (`None and 8 or 0` reads it as 0; an undefined D16 selects
the address branch) and an output is still emitted. -/
theorem c8_theorem (st : BState) (input bits : List Bool)
    (hlen : 22 ≤ bits.length) (hpre : bits.take 4 = PREAMBLE)
    (hbad : ∃ i, 2 ≤ i ∧ i ≤ 10 ∧ bits.getD (2 * i) false = bits.getD (2 * i + 1) false) :
    bepFeedBits false st input ≠ none ∧ ∃ o, processFrame false bits = .out o :=
  ⟨bepFeedBits_false_ne_none input st, processFrame_false_out bits hlen hpre⟩

theorem c8_witness :
    bepFeedBits false bep0
        ([true, true, true, false, true, true, false, true, false, true, false, true,
          false, true, false, true, false, true, false, true, false, true]
          ++ List.replicate 6 false) ≠ none ∧
    ∃ o, processFrame false
        [true, true, true, false, true, true, false, true, false, true, false, true,
         false, true, false, true, false, true, false, true, false, true] = .out o :=
  c8_theorem bep0
    ([true, true, true, false, true, true, false, true, false, true, false, true,
      false, true, false, true, false, true, false, true, false, true]
      ++ List.replicate 6 false)
    [true, true, true, false, true, true, false, true, false, true, false, true,
     false, true, false, true, false, true, false, true, false, true]
    (by decide) (by decide) ⟨2, by decide⟩

/-- C8 (counterexample to the claim as stated): the 22-half-cycle frame
`1110 11 010101 01010101 01` has its preamble present and an undefined pair
`11` in the house nibble, yet the processor emits an Address event for it
(the frame is not marked invalid); and in all-bits mode the ≥22-half-cycle
buffer `'1110' * 6` (preamble present, undefined pair `11` at the fifth and
sixth half-cycles) makes `_process_frame` raise an uncaught `IndexError`
(popping an exhausted deque), so an exception does escape `feed_bit`. -/
theorem c8_counterexample :
    (([true, true, true, false, true, true, false, true, false, true, false, true,
       false, true, false, true, false, true, false, true, false, true] : List Bool).length = 22) ∧
    (([true, true, true, false, true, true, false, true, false, true, false, true,
       false, true, false, true, false, true, false, true, false, true] : List Bool).take 4 = PREAMBLE) ∧
    (bepFeedBits false bep0
        ([true, true, true, false, true, true, false, true, false, true, false, true,
          false, true, false, true, false, true, false, true, false, true]
          ++ List.replicate 6 false)
      = some (bep0, [BOut.ev (.address ⟨0, 0⟩)])) ∧
    ((repL 6 PREAMBLE).length = 24) ∧
    ((repL 6 PREAMBLE).take 4 = PREAMBLE) ∧
    (bepFeedBits true bep0 (repL 6 PREAMBLE ++ List.replicate 6 false) = none) := by
  exact ⟨rfl, rfl, rfl, rfl, rfl, rfl⟩

theorem bsmFeedBit_matched (st : MState) (b : Bool) (hm : st.matched = true) :
    bsmFeedBit st b = (st, [b]) := by
  simp [bsmFeedBit, hm]

theorem bsmFeedBit_spec (st : MState) (b : Bool) (hm : st.matched = false)
    (hz : b = false → st.zeroes < INTERFRAME_ZEROES) :
    (bsmFeedBit st b).2 ++ (bsmFeedBit st b).1.held = st.held ++ [b] ∧
    (bsmFeedBit st b).1.zeroes = (if b then 0 else st.zeroes + 1) := by
  cases b with
  | true =>
    refine ⟨?_, by simp [bsmFeedBit, hm]⟩
    simp only [bsmFeedBit, hm, Bool.false_eq_true, if_false, if_true]
    exact List.take_append_drop _ _
  | false =>
    have hz' := hz rfl
    refine ⟨?_, by simp [bsmFeedBit, hm, hz']⟩
    simp only [bsmFeedBit, hm, Bool.false_eq_true, if_false, hz', if_true]
    exact List.take_append_drop _ _

theorem bsmFeedBits_conserve (input : List Bool) :
    ∀ st : MState, (st.matched = false → bsmRunsOK st.zeroes input = true) →
      ((bsmFeedBits st input).2 ++ (bsmFeedBits st input).1.held).Perm (st.held ++ input) := by
  induction input with
  | nil => intro st _; simp [bsmFeedBits]
  | cons b r ih =>
    intro st hruns
    by_cases hm : st.matched
    · have hfb : bsmFeedBit st b = (st, [b]) := bsmFeedBit_matched st b hm
      have ihr := ih st (fun hf => absurd hm (by simp [hf]))
      simp only [bsmFeedBits, hfb]
      rw [List.append_assoc]
      exact (ihr.append_left [b]).trans (@List.perm_middle Bool b st.held r).symm
    · have hm' : st.matched = false := by simpa using hm
      have hzok : b = false → st.zeroes < INTERFRAME_ZEROES := by
        intro hb
        have := hruns hm'
        rw [hb] at this
        simp only [bsmRunsOK, Bool.and_eq_true, decide_eq_true_eq] at this
        omega
      obtain ⟨hcons, hzeq⟩ := bsmFeedBit_spec st b hm' hzok
      have hnext : bsmRunsOK (bsmFeedBit st b).1.zeroes r = true := by
        rw [hzeq]
        have := hruns hm'
        cases b with
        | true => simpa [bsmRunsOK] using this
        | false =>
          simp only [bsmRunsOK, Bool.and_eq_true] at this
          simpa using this.2
      have ihr := ih (bsmFeedBit st b).1 (fun _ => hnext)
      simp only [bsmFeedBits]
      rw [List.append_assoc]
      refine (ihr.append_left _).trans ?_
      rw [← List.append_assoc, hcons]
      have e3 : (st.held ++ [b]) ++ r = st.held ++ (b :: r) := by simp
      rw [e3]

/-- C4 (amended): for every expected bit string and every `feed_bit` input
sequence containing no run of seven or more consecutive zeros, the
concatenation of all bits forwarded to the passthrough sink plus the bits
still held inside the matcher when `wait` returns is a permutation of the
fed bits (the held window sits between earlier and later passthrough output
in stream order).  Zeros beyond the sixth of a consecutive run fed while
unmatched are discarded by design, and are the only bits ever lost. -/
theorem c4_theorem (expected input : List Bool) (hruns : bsmRunsOK 0 input = true) :
    (((bsmFeedBits (bsmInit expected) input).2
        ++ (bsmWait (bsmFeedBits (bsmInit expected) input).1).2
        ++ (bsmWait (bsmFeedBits (bsmInit expected) input).1).1.held)).Perm input := by
  have hmain := bsmFeedBits_conserve input (bsmInit expected) (fun _ => hruns)
  simp only [bsmInit, List.nil_append] at hmain
  by_cases hm : (bsmFeedBits (bsmInit expected) input).1.matched
  · simpa [bsmWait, hm, List.append_assoc] using hmain
  · simpa [bsmWait, hm, List.append_assoc] using hmain

theorem c4_witness :
    (((bsmFeedBits (bsmInit [true, false]) [true, false, true]).2
        ++ (bsmWait (bsmFeedBits (bsmInit [true, false]) [true, false, true]).1).2
        ++ (bsmWait (bsmFeedBits (bsmInit [true, false]) [true, false, true]).1).1.held)).Perm
      [true, false, true] :=
  c4_theorem [true, false] [true, false, true] (by decide)

/-- C4 (counterexample to the claim as stated): with expected stream `'1'`,
feeding seven consecutive zeros loses a bit — passthrough output plus the
held/drained bits total six zeros, not seven (the seventh zero of the run is
discarded while the matcher is unmatched); and after a match the held window
is not in stream position: for expected `'1'` and input `'10'`, output ++
held is `01`, not `10`. -/
theorem c4_counterexample :
    ((bsmFeedBits (bsmInit [true]) (List.replicate 7 false)).2
        ++ (bsmWait (bsmFeedBits (bsmInit [true]) (List.replicate 7 false)).1).2
        ++ (bsmWait (bsmFeedBits (bsmInit [true]) (List.replicate 7 false)).1).1.held
      = List.replicate 6 false) ∧
    ((List.replicate 6 false : List Bool) ≠ List.replicate 7 false) ∧
    ((bsmFeedBits (bsmInit [true]) [true, false]).2
        ++ (bsmWait (bsmFeedBits (bsmInit [true]) [true, false]).1).2
        ++ (bsmWait (bsmFeedBits (bsmInit [true]) [true, false]).1).1.held
      = [false, true]) ∧
    (([false, true] : List Bool) ≠ [true, false]) := by
  exact ⟨rfl, by decide, rfl, by decide⟩

theorem c3_witness :
    (∀ e : X10Event, pyHasattr e PyAttrName.as_output_bit_str = false) ∧
    (tth_handle_event_batch_out_with_echo PyAttrName.as_tw523_echo_bit_str_and_qty
        (fun _ => false) [X10Event.address ⟨6, 6⟩]
      = ⟨some (.valueError 0), [], []⟩) ∧
    (pl513_handle_event_batch_out [X10Event.address ⟨6, 6⟩]
      = ⟨some (.valueError 0), [], []⟩) :=
  c3_theorem [X10Event.address ⟨6, 6⟩] (by decide)
    PyAttrName.as_tw523_echo_bit_str_and_qty (fun _ => false)

theorem dropWhile_replicate_false_append (z : Nat) (l : List Bool) :
    (List.replicate z false ++ l).dropWhile (fun b => !b) = l.dropWhile (fun b => !b) := by
  induction z with
  | zero => simp
  | succ n ih => simpa [List.replicate_succ] using ih

theorem takeWhile_replicate_false_append (z : Nat) (l : List Bool) :
    (List.replicate z false ++ l).takeWhile (fun b => !b)
      = List.replicate z false ++ l.takeWhile (fun b => !b) := by
  induction z with
  | zero => simp
  | succ n ih => simpa [List.replicate_succ] using ih

theorem trailZ_append_replicate (l : List Bool) (z : Nat) :
    trailZ (l ++ List.replicate z false) = trailZ l + z := by
  simp [trailZ, List.reverse_append, takeWhile_replicate_false_append, Nat.add_comm]

theorem dropTrailZ_append_replicate (l : List Bool) (z : Nat) :
    dropTrailZ (l ++ List.replicate z false) = dropTrailZ l := by
  simp [dropTrailZ, List.reverse_append, dropWhile_replicate_false_append]

theorem trailZ_append_true (l : List Bool) : trailZ (l ++ [true]) = 0 := by
  simp [trailZ, List.reverse_append, List.takeWhile]

theorem dropTrailZ_append_true (l : List Bool) : dropTrailZ (l ++ [true]) = l ++ [true] := by
  simp [dropTrailZ, List.reverse_append, List.dropWhile]

theorem bepFeedBits_append (ab : Bool) (s1 : List Bool) :
    ∀ (st : BState) (s2 : List Bool),
      bepFeedBits ab st (s1 ++ s2) =
        match bepFeedBits ab st s1 with
        | none => none
        | some (st1, o1) =>
          match bepFeedBits ab st1 s2 with
          | none => none
          | some (st2, o2) => some (st2, o1 ++ o2) := by
  induction s1 with
  | nil =>
    intro st s2
    cases h : bepFeedBits ab st s2 with
    | none => simp [bepFeedBits, h]
    | some v => obtain ⟨st2, o2⟩ := v; simp [bepFeedBits, h]
  | cons b r ih =>
    intro st s2
    simp only [List.cons_append, bepFeedBits]
    cases hfb : bepFeedBit ab st b with
    | none => rfl
    | some v =>
      obtain ⟨st1, o1⟩ := v
      dsimp only [List.append_eq]
      rw [ih st1 s2]
      cases h1 : bepFeedBits ab st1 r with
      | none => rfl
      | some w =>
        obtain ⟨st2, o2⟩ := w
        dsimp only
        cases h2 : bepFeedBits ab st2 s2 with
        | none => rfl
        | some u =>
          obtain ⟨st3, o3⟩ := u
          simp [List.append_assoc]

theorem bepAbsorb (s : List Bool) :
    ∀ (ab : Bool) (X : List Bool) (z : Nat), bepRunsOK z s = true →
      bepFeedBits ab ⟨X ++ [true], z⟩ s =
        some (⟨dropTrailZ ((X ++ [true]) ++ List.replicate z false ++ s),
               trailZ ((X ++ [true]) ++ List.replicate z false ++ s)⟩, []) := by
  induction s with
  | nil =>
    intro ab X z _
    have h1 : dropTrailZ ((X ++ [true]) ++ List.replicate z false ++ []) = X ++ [true] := by
      rw [List.append_nil, dropTrailZ_append_replicate, dropTrailZ_append_true]
    have h2 : trailZ ((X ++ [true]) ++ List.replicate z false ++ []) = z := by
      rw [List.append_nil, trailZ_append_replicate, trailZ_append_true]
      omega
    simp only [bepFeedBits, h1, h2]
  | cons b r ih =>
    intro ab X z hruns
    cases b with
    | true =>
      have hfb : bepFeedBit ab ⟨X ++ [true], z⟩ true
          = some (⟨(X ++ [true]) ++ List.replicate z false ++ [true], 0⟩, []) := by
        simp [bepFeedBit]
      have hruns' : bepRunsOK 0 r = true := by simpa [bepRunsOK] using hruns
      simp only [bepFeedBits, hfb]
      rw [show (X ++ [true]) ++ List.replicate z false ++ [true]
            = ((X ++ [true]) ++ List.replicate z false) ++ [true] by simp [List.append_assoc]]
      rw [ih ab ((X ++ [true]) ++ List.replicate z false) 0 hruns']
      simp [List.append_assoc]
    | false =>
      have hz : z + 1 < 6 ∧ bepRunsOK (z + 1) r = true := by
        simpa [bepRunsOK] using hruns
      have hfb : bepFeedBit ab ⟨X ++ [true], z⟩ false
          = some (⟨X ++ [true], z + 1⟩, []) := by
        simp [bepFeedBit, Nat.not_le.mpr hz.1]
      simp only [bepFeedBits, hfb]
      rw [ih ab X (z + 1) hz.2]
      rw [show List.replicate (z + 1) false = List.replicate z false ++ [false] from
        List.replicate_succ' z false]
      simp [List.append_assoc]

theorem bepZerosEmpty (ab : Bool) (k : Nat) :
    bepFeedBits ab bep0 (List.replicate k false) = some (bep0, []) := by
  induction k with
  | zero => simp [bepFeedBits]
  | succ n ih =>
    have hfb : bepFeedBit ab bep0 false = some (bep0, []) := by
      simp [bepFeedBit, bep0]
    simp only [List.replicate_succ, bepFeedBits, hfb, ih]
    rfl

theorem bepFlush (k : Nat) :
    ∀ (ab : Bool) (bits : List Bool) (z : Nat), bits ≠ [] → z ≤ 5 → 6 ≤ z + k →
      bepFeedBits ab ⟨bits, z⟩ (List.replicate k false) = runOutcome (processFrame ab bits) := by
  induction k with
  | zero => intro ab bits z _ hz hk; omega
  | succ n ih =>
    intro ab bits z hne hz hk
    by_cases hz6 : 6 ≤ z + 1
    · have hfb : bepFeedBit ab ⟨bits, z⟩ false =
          match processFrame ab bits with
          | .crash => none
          | .silent => some (bep0, [])
          | .out o => some (bep0, [o]) := by
        simp [bepFeedBit, hne, hz6]
      simp only [List.replicate_succ, bepFeedBits, hfb]
      cases hpf : processFrame ab bits with
      | crash => simp [runOutcome, hpf]
      | silent => simp [runOutcome, hpf, bepZerosEmpty]
      | out o => simp [runOutcome, hpf, bepZerosEmpty]
    · have hfb : bepFeedBit ab ⟨bits, z⟩ false = some (⟨bits, z + 1⟩, []) := by
        simp [bepFeedBit, hne, hz6]
      simp only [List.replicate_succ, bepFeedBits, hfb]
      rw [ih ab bits (z + 1) hne (by omega) (by omega)]
      cases processFrame ab bits <;> simp [runOutcome]

theorem bepRun_encode (ab : Bool) (u : List Bool) (k : Nat) (hk : 6 ≤ k)
    (hruns : bepRunsOK 0 (true :: u) = true) (htz : trailZ (true :: u) ≤ 5) :
    bepFeedBits ab bep0 ((true :: u) ++ List.replicate k false)
      = runOutcome (processFrame ab (dropTrailZ (true :: u))) := by
  have hfirst : bepFeedBit ab bep0 true = some (⟨[true], 0⟩, []) := by
    simp [bepFeedBit, bep0]
  have hruns' : bepRunsOK 0 u = true := by simpa [bepRunsOK] using hruns
  have habs := bepAbsorb u ab [] 0 hruns'
  simp only [List.nil_append, List.replicate_zero, List.append_nil] at habs
  have hsplit := bepFeedBits_append ab (true :: u) bep0 (List.replicate k false)
  rw [hsplit]
  have hfeed : bepFeedBits ab bep0 (true :: u)
      = some (⟨dropTrailZ (true :: u), trailZ (true :: u)⟩, []) := by
    simp only [bepFeedBits, hfirst]
    rw [show ([true] : List Bool) ++ u = true :: u from rfl] at habs
    rw [habs]
    rfl
  rw [hfeed]
  dsimp only
  have hne : dropTrailZ (true :: u) ≠ [] := by
    have key : ∀ l : List Bool, (l ++ [true]).dropWhile (fun b => !b) ≠ [] := by
      intro l
      induction l with
      | nil => simp [List.dropWhile]
      | cons a l' ihl =>
        cases a <;> simp [List.dropWhile] <;> simpa using ihl
    intro hcon
    apply key u.reverse
    have h2 := congrArg List.reverse hcon
    simp only [dropTrailZ, List.reverse_reverse, List.reverse_nil] at h2
    rw [show (true :: u).reverse = u.reverse ++ [true] by simp] at h2
    exact h2
  rw [bepFlush k ab (dropTrailZ (true :: u)) (trailZ (true :: u)) hne htz (by omega)]
  cases processFrame ab (dropTrailZ (true :: u)) <;> simp [runOutcome]

theorem PairStr.append {a b : List Bool} (ha : PairStr a) (hb : PairStr b) :
    PairStr (a ++ b) := by
  induction ha with
  | nil => simpa using hb
  | one l _ ihl => exact PairStr.one (l ++ b) ihl
  | zero l _ ihl => exact PairStr.zero (l ++ b) ihl

theorem pairStr_halfPair (c : Bool) : PairStr (halfPair c) := by
  cases c
  · exact PairStr.zero [] PairStr.nil
  · exact PairStr.one [] PairStr.nil

theorem pairStr_x10_bit_str (n : Nat) : PairStr (x10_bit_str n) := by
  unfold x10_bit_str
  have h := (pairStr_halfPair (n &&& 8 != 0)).append
    ((pairStr_halfPair (n &&& 4 != 0)).append
      ((pairStr_halfPair (n &&& 2 != 0)).append (pairStr_halfPair (n &&& 1 != 0))))
  simpa [List.append_assoc] using h

theorem PairStr.rightDecomp {l : List Bool} (h : PairStr l) :
    l = [] ∨ ∃ l' a b, PairStr l' ∧ l = l' ++ [a, b] ∧
      ((a = true ∧ b = false) ∨ (a = false ∧ b = true)) := by
  induction h with
  | nil => left; rfl
  | one l hl ihl =>
    right
    rcases ihl with rfl | ⟨l', a, b, hl', rfl, hab⟩
    · exact ⟨[], true, false, PairStr.nil, rfl, Or.inl ⟨rfl, rfl⟩⟩
    · exact ⟨[true, false] ++ l', a, b, PairStr.one l' hl', by simp, hab⟩
  | zero l hl ihl =>
    right
    rcases ihl with rfl | ⟨l', a, b, hl', rfl, hab⟩
    · exact ⟨[], false, true, PairStr.nil, rfl, Or.inr ⟨rfl, rfl⟩⟩
    · exact ⟨[false, true] ++ l', a, b, PairStr.zero l' hl', by simp, hab⟩

theorem bepRunsOK_pairStr {m : List Bool} (hm : PairStr m) :
    ∀ r : List Bool, (∀ z, z ≤ 4 → bepRunsOK z r = true) →
      ∀ z, z ≤ 4 → bepRunsOK z (m ++ r) = true := by
  induction hm with
  | nil => intro r hr z hz; exact hr z hz
  | one l _ ihl =>
    intro r hr z _
    have := ihl r hr 1 (by omega)
    simpa [bepRunsOK] using this
  | zero l _ ihl =>
    intro r hr z hz
    have h0 := ihl r hr 0 (by omega)
    show bepRunsOK z (([false, true] ++ l) ++ r) = true
    rw [show ([false, true] ++ l) ++ r = false :: true :: (l ++ r) by simp]
    simp only [bepRunsOK]
    rw [h0]
    simp
    omega

theorem bepRunsOK_repF {body : List Bool} (hb : PairStr body) :
    ∀ q : Nat, ∀ z, z ≤ 4 →
      bepRunsOK z (repL q ([true, true, true, false] ++ body)) = true := by
  intro q
  induction q with
  | zero => intro z _; simp [repL, bepRunsOK]
  | succ n ih =>
    intro z hz
    rw [repL_succ]
    rw [show ([true, true, true, false] ++ body)
          ++ repL n ([true, true, true, false] ++ body)
        = true :: true :: true :: false
            :: (body ++ repL n ([true, true, true, false] ++ body)) by simp]
    simp only [bepRunsOK]
    have h1 := bepRunsOK_pairStr hb (repL n ([true, true, true, false] ++ body))
      (fun z' hz' => ih z' hz') 1 (by omega)
    rw [h1]
    simp

theorem repL_succ_right (n : Nat) (l : List Bool) : repL (n + 1) l = repL n l ++ l := by
  induction n with
  | zero => simp [repL]
  | succ m ih => rw [repL_succ, ih, ← List.append_assoc, ← repL_succ, ih]

theorem count1110_pair {m : List Bool} (hm : PairStr m) :
    ∀ r : List Bool,
      (r = [] ∨ ∃ r', r = true :: true :: true :: false :: r') →
      count1110 (m ++ r) = count1110 r ∧ count1110 (true :: (m ++ r)) = count1110 r := by
  induction hm with
  | nil =>
    intro r hr
    refine ⟨by simp, ?_⟩
    rcases hr with rfl | ⟨r', rfl⟩
    · simp [count1110]
    · simp [count1110]
  | one l _ ihl =>
    intro r hr
    obtain ⟨ih1, _⟩ := ihl r hr
    constructor
    · rw [show ([true, false] ++ l) ++ r = true :: false :: (l ++ r) by simp]
      simpa [count1110] using ih1
    · rw [show true :: (([true, false] ++ l) ++ r) = true :: true :: false :: (l ++ r) by simp]
      simpa [count1110] using ih1
  | zero l _ ihl =>
    intro r hr
    obtain ⟨_, ih2⟩ := ihl r hr
    constructor
    · rw [show ([false, true] ++ l) ++ r = false :: true :: (l ++ r) by simp]
      simpa [count1110] using ih2
    · rw [show true :: (([false, true] ++ l) ++ r) = true :: false :: true :: (l ++ r) by simp]
      simpa [count1110] using ih2

theorem count1110_repF {body : List Bool} (hb : PairStr body) :
    ∀ q : Nat, count1110 (repL q ([true, true, true, false] ++ body)) = q := by
  intro q
  induction q with
  | zero => simp [repL, count1110]
  | succ n ih =>
    rw [repL_succ]
    rw [show ([true, true, true, false] ++ body)
          ++ repL n ([true, true, true, false] ++ body)
        = true :: true :: true :: false
            :: (body ++ repL n ([true, true, true, false] ++ body)) by simp]
    have hcond : repL n ([true, true, true, false] ++ body) = []
        ∨ ∃ r', repL n ([true, true, true, false] ++ body)
            = true :: true :: true :: false :: r' := by
      cases n with
      | zero => left; rfl
      | succ m =>
        right
        rw [repL_succ]
        exact ⟨body ++ repL m ([true, true, true, false] ++ body), by simp⟩
    have hpeel := (count1110_pair hb _ hcond).1
    simp only [count1110, hpeel, ih]

theorem endsWith1110_repF {body : List Bool} (hb : PairStr body) (hlen : 4 ≤ body.length)
    (q : Nat) (hq : 1 ≤ q) :
    endsWith1110 (repL q ([true, true, true, false] ++ body)) = false := by
  rcases PairStr.rightDecomp hb with rfl | ⟨l', a2, b2, hl', rfl, hab2⟩
  · simp at hlen
  · rcases PairStr.rightDecomp hl' with rfl | ⟨l'', a1, b1, _, rfl, hab1⟩
    · simp at hlen
    · obtain ⟨n, rfl⟩ : ∃ n, q = n + 1 := ⟨q - 1, by omega⟩
      rw [repL_succ_right]
      unfold endsWith1110
      rw [List.reverse_append]
      have hrev : ([true, true, true, false] ++ ((l'' ++ [a1, b1]) ++ [a2, b2])).reverse
          = b2 :: a2 :: b1 :: a1 :: (l''.reverse ++ [false, true, true, true]) := by
        simp
      rw [hrev]
      rw [show (b2 :: a2 :: b1 :: a1 :: (l''.reverse ++ [false, true, true, true]))
            ++ (repL n ([true, true, true, false] ++ ((l'' ++ [a1, b1]) ++ [a2, b2]))).reverse
          = b2 :: a2 :: b1 :: a1 :: ((l''.reverse ++ [false, true, true, true])
            ++ (repL n ([true, true, true, false] ++ ((l'' ++ [a1, b1]) ++ [a2, b2]))).reverse)
        by simp]
      rcases hab1 with ⟨rfl, rfl⟩ | ⟨rfl, rfl⟩ <;> rcases hab2 with ⟨rfl, rfl⟩ | ⟨rfl, rfl⟩ <;>
        simp [List.take]

theorem take4_repF (body : List Bool) (q : Nat) (hq : 1 ≤ q) :
    (repL q ([true, true, true, false] ++ body)).take 4 = PREAMBLE := by
  obtain ⟨n, rfl⟩ : ∃ n, q = n + 1 := ⟨q - 1, by omega⟩
  rw [repL_succ]
  rw [show ([true, true, true, false] ++ body) ++ repL n ([true, true, true, false] ++ body)
      = true :: true :: true :: false :: (body ++ repL n ([true, true, true, false] ++ body))
    by simp]
  rfl

theorem processFramePadded_allbits {body : List Bool} (q : Nat) (hq : 1 ≤ q)
    (hb : PairStr body) (hlen : 18 ≤ body.length) :
    processFramePadded true (repL q ([true, true, true, false] ++ body))
      = processDispatch true q ([true, true, true, false] ++ body) := by
  have hFlen : ([true, true, true, false] ++ body).length = 4 + body.length := by
    simp
    omega
  have hlen_rep : (repL q ([true, true, true, false] ++ body)).length
      = q * (4 + body.length) := by rw [length_repL, hFlen]
  have hmul : 4 + body.length ≤ q * (4 + body.length) :=
    Nat.le_mul_of_pos_left _ (by omega)
  have h22 : ¬ ((repL q ([true, true, true, false] ++ body)).length < 22) := by
    rw [hlen_rep]; omega
  have hends := endsWith1110_repF hb (by omega) q hq
  have hcount := count1110_repF hb q
  unfold processFramePadded
  rw [if_neg h22, if_pos rfl, hends]
  simp only [Bool.false_eq_true, if_false, hcount]
  rw [if_neg (by omega : ¬ q = 0)]
  rw [hlen_rep, Nat.mul_div_cancel_left _ (by omega : 0 < q)]
  have htakeF : (repL q ([true, true, true, false] ++ body)).take (4 + body.length)
      = [true, true, true, false] ++ body := by
    obtain ⟨n, rfl⟩ : ∃ n, q = n + 1 := ⟨q - 1, by omega⟩
    rw [repL_succ, ← hFlen, List.take_left]
  rw [htakeF]
  rw [if_pos ?hcond]
  case hcond =>
    rw [take4_repF body q hq]
    simp [PREAMBLE]

theorem dropTrailZ_append_tf (Y : List Bool) :
    dropTrailZ (Y ++ [true, false]) = Y ++ [true] := by
  unfold dropTrailZ
  rw [show Y ++ [true, false] = (Y ++ [true]) ++ [false] by simp]
  rw [List.reverse_append]
  simp [List.dropWhile, List.reverse_append]

theorem trailZ_append_tf (Y : List Bool) : trailZ (Y ++ [true, false]) = 1 := by
  unfold trailZ
  rw [show Y ++ [true, false] = (Y ++ [true]) ++ [false] by simp]
  rw [List.reverse_append]
  simp [List.takeWhile, List.reverse_append]

theorem trailZ_append_ft (Y : List Bool) : trailZ (Y ++ [false, true]) = 0 := by
  have := trailZ_append_true (Y ++ [false])
  simpa [List.append_assoc] using this

theorem processFrame_dropTrail_fn (ab : Bool) (W : List Bool) (q : Nat) (hq : 1 ≤ q)
    (hWeven : W.length % 2 = 0) :
    processFrame ab (dropTrailZ (repL q (W ++ [true, false])))
      = processFramePadded ab (repL q (W ++ [true, false])) := by
  obtain ⟨n, rfl⟩ : ∃ n, q = n + 1 := ⟨q - 1, by omega⟩
  rw [repL_succ_right]
  rw [show repL n (W ++ [true, false]) ++ (W ++ [true, false])
      = (repL n (W ++ [true, false]) ++ W) ++ [true, false] by simp [List.append_assoc]]
  rw [dropTrailZ_append_tf]
  unfold processFrame
  have hmul2 : n * (W.length + 2) % 2 = 0 := by
    rw [Nat.mul_mod]
    rw [show (W.length + 2) % 2 = 0 by omega]
    simp
  have hodd : ((repL n (W ++ [true, false]) ++ W) ++ [true]).length % 2 = 1 := by
    rw [List.length_append, List.length_append, length_repL, List.length_append]
    norm_num
    omega
  rw [if_pos hodd]
  rw [show ((repL n (W ++ [true, false]) ++ W) ++ [true]) ++ [false]
      = (repL n (W ++ [true, false]) ++ W) ++ [true, false] by simp]

theorem processFrame_dropTrail_addr (ab : Bool) (W : List Bool) (q : Nat) (hq : 1 ≤ q)
    (hWeven : W.length % 2 = 0) :
    processFrame ab (dropTrailZ (repL q (W ++ [false, true])))
      = processFramePadded ab (repL q (W ++ [false, true])) := by
  obtain ⟨n, rfl⟩ : ∃ n, q = n + 1 := ⟨q - 1, by omega⟩
  rw [repL_succ_right]
  rw [show repL n (W ++ [false, true]) ++ (W ++ [false, true])
      = (repL n (W ++ [false, true]) ++ W ++ [false]) ++ [true] by simp [List.append_assoc]]
  rw [dropTrailZ_append_true]
  unfold processFrame
  have hmul2 : n * (W.length + 2) % 2 = 0 := by
    rw [Nat.mul_mod]
    rw [show (W.length + 2) % 2 = 0 by omega]
    simp
  have heven : ((repL n (W ++ [false, true]) ++ W ++ [false]) ++ [true]).length % 2 = 0 := by
    rw [List.length_append, List.length_append, List.length_append, length_repL,
      List.length_append]
    norm_num
    omega
  rw [if_neg (by omega)]

theorem getBitM_halfPair (c : Bool) (r : List Bool) :
    getBitM (halfPair c ++ r) = some (some c, r) := by
  cases c <;> rfl

theorem nibble_and_fifteen (n : Nat) :
    ((if (n &&& 8 != 0 : Bool) then (8:Nat) else 0) + (if (n &&& 4 != 0 : Bool) then 4 else 0)
      + (if (n &&& 2 != 0 : Bool) then 2 else 0) + (if (n &&& 1 != 0 : Bool) then 1 else 0))
      = n &&& 15 := by
  have hlt : n &&& 15 < 16 := by
    have := Nat.and_le_right (n := n) (m := 15)
    omega
  have h8 : n &&& 8 = (n &&& 15) &&& 8 := by
    rw [Nat.and_assoc]
    rfl
  have h4 : n &&& 4 = (n &&& 15) &&& 4 := by
    rw [Nat.and_assoc]
    rfl
  have h2 : n &&& 2 = (n &&& 15) &&& 2 := by
    rw [Nat.and_assoc]
    rfl
  have h1 : n &&& 1 = (n &&& 15) &&& 1 := by
    rw [Nat.and_assoc]
    rfl
  rw [h8, h4, h2, h1]
  revert hlt
  generalize n &&& 15 = m
  revert m
  decide

theorem getNibbleM_x10 (n : Nat) (r : List Bool) :
    getNibbleM (x10_bit_str n ++ r) = some (n &&& 15, r) := by
  unfold x10_bit_str
  rw [show (halfPair (n &&& 8 != 0) ++ halfPair (n &&& 4 != 0) ++ halfPair (n &&& 2 != 0)
        ++ halfPair (n &&& 1 != 0)) ++ r
      = halfPair (n &&& 8 != 0) ++ (halfPair (n &&& 4 != 0) ++ (halfPair (n &&& 2 != 0)
        ++ (halfPair (n &&& 1 != 0) ++ r))) by simp [List.append_assoc]]
  unfold getNibbleM
  simp only [getBitM_halfPair]
  simp only [nibWeight, Option.some.injEq]
  simp only [Prod.mk.injEq]
  exact ⟨nibble_and_fifteen n, trivial⟩

theorem halfPair_length (c : Bool) : (halfPair c).length = 2 := by
  cases c <;> rfl

theorem x10_bit_str_length (n : Nat) : (x10_bit_str n).length = 8 := by
  simp [x10_bit_str, halfPair_length]

theorem dispatch_addr (ab : Bool) (copies h u : Nat) :
    processDispatch ab copies (PREAMBLE ++ x10_bit_str h ++ x10_bit_str u ++ [false, true])
      = .out (.ev (.address ⟨h &&& 15, u &&& 15⟩)) := by
  rw [show PREAMBLE ++ x10_bit_str h ++ x10_bit_str u ++ [false, true]
      = true :: true :: true :: false :: (x10_bit_str h ++ (x10_bit_str u ++ [false, true]))
    by simp [PREAMBLE, List.append_assoc]]
  simp only [processDispatch]
  rw [if_neg (show ¬([true, true, true, false] ≠ PREAMBLE) from fun hc => hc rfl)]
  rw [getNibbleM_x10]
  dsimp only
  rw [getNibbleM_x10]
  dsimp only
  rw [show getBitM [false, true] = some (some false, []) from rfl]
  dsimp only
  rw [if_pos ⟨by simp, rfl⟩]

theorem dispatch_fn (ab : Bool) (copies h f : Nat)
    (h4 : f &&& 15 ≠ 4) (h5 : f &&& 15 ≠ 5) (h10 : f &&& 15 ≠ 10) (h11 : f &&& 15 ≠ 11) :
    processDispatch ab copies (PREAMBLE ++ x10_bit_str h ++ x10_bit_str f ++ [true, false])
      = .out (.ev (.functionEv ⟨h &&& 15, f &&& 15⟩)) := by
  rw [show PREAMBLE ++ x10_bit_str h ++ x10_bit_str f ++ [true, false]
      = true :: true :: true :: false :: (x10_bit_str h ++ (x10_bit_str f ++ [true, false]))
    by simp [PREAMBLE, List.append_assoc]]
  simp only [processDispatch]
  rw [if_neg (show ¬([true, true, true, false] ≠ PREAMBLE) from fun hc => hc rfl)]
  rw [getNibbleM_x10]
  dsimp only
  rw [getNibbleM_x10]
  dsimp only
  rw [show getBitM [true, false] = some (some true, []) from rfl]
  dsimp only
  rw [if_neg (by simp)]
  rw [if_neg (by simp)]
  rw [if_neg (by simp [X10_FN_DIM, X10_FN_BRIGHT, h4, h5])]
  rw [if_neg (by simp)]
  rw [if_neg (by simp [X10_FN_PRESET_DIM_0, X10_FN_PRESET_DIM_1, h10, h11])]
  rw [if_pos rfl]

theorem dispatch_dim_neg (copies h : Nat) :
    processDispatch true copies
        (PREAMBLE ++ x10_bit_str h ++ x10_bit_str X10_FN_DIM ++ [true, false])
      = .out (.ev (.relativeDim ⟨h &&& 15,
          ((-(min (copies : Int) (RELATIVE_DIM_STEPS : Int)) : Int) : ℚ)
            / ((RELATIVE_DIM_STEPS : Nat) : ℚ)⟩)) := by
  rw [show PREAMBLE ++ x10_bit_str h ++ x10_bit_str X10_FN_DIM ++ [true, false]
      = true :: true :: true :: false
          :: (x10_bit_str h ++ (x10_bit_str X10_FN_DIM ++ [true, false]))
    by simp [PREAMBLE, List.append_assoc]]
  simp only [processDispatch]
  rw [if_neg (show ¬([true, true, true, false] ≠ PREAMBLE) from fun hc => hc rfl)]
  rw [getNibbleM_x10]
  dsimp only
  rw [getNibbleM_x10]
  dsimp only
  rw [show getBitM [true, false] = some (some true, []) from rfl]
  dsimp only
  rw [if_neg (by simp)]
  rw [if_neg (by simp)]
  rw [if_pos ⟨by left; rfl, rfl⟩]
  rw [if_pos trivial]
  rw [if_pos (show X10_FN_DIM &&& 15 = X10_FN_DIM from rfl)]

theorem dispatch_dim_pos (copies h : Nat) :
    processDispatch true copies
        (PREAMBLE ++ x10_bit_str h ++ x10_bit_str X10_FN_BRIGHT ++ [true, false])
      = .out (.ev (.relativeDim ⟨h &&& 15,
          ((min (copies : Int) (RELATIVE_DIM_STEPS : Int) : Int) : ℚ)
            / ((RELATIVE_DIM_STEPS : Nat) : ℚ)⟩)) := by
  rw [show PREAMBLE ++ x10_bit_str h ++ x10_bit_str X10_FN_BRIGHT ++ [true, false]
      = true :: true :: true :: false
          :: (x10_bit_str h ++ (x10_bit_str X10_FN_BRIGHT ++ [true, false]))
    by simp [PREAMBLE, List.append_assoc]]
  simp only [processDispatch]
  rw [if_neg (show ¬([true, true, true, false] ≠ PREAMBLE) from fun hc => hc rfl)]
  rw [getNibbleM_x10]
  dsimp only
  rw [getNibbleM_x10]
  dsimp only
  rw [show getBitM [true, false] = some (some true, []) from rfl]
  dsimp only
  rw [if_neg (by simp)]
  rw [if_neg (by simp)]
  rw [if_pos ⟨by right; rfl, rfl⟩]
  rw [if_pos trivial]
  rw [if_neg (show ¬(X10_FN_BRIGHT &&& 15 = X10_FN_DIM) by decide)]

theorem dispatch_pd (ab : Bool) (copies m : Nat) (key : Nat)
    (hkey : key = X10_FN_PRESET_DIM_0 ∨ key = X10_FN_PRESET_DIM_1) :
    processDispatch ab copies
        (PREAMBLE ++ x10_bit_str m ++ x10_bit_str key ++ [true, false])
      = .out (.ev (.absoluteDim
          ⟨((((if key = X10_FN_PRESET_DIM_1 then 16 else 0) + (m &&& 15) : Nat)) : ℚ) / 31⟩)) := by
  rw [show PREAMBLE ++ x10_bit_str m ++ x10_bit_str key ++ [true, false]
      = true :: true :: true :: false
          :: (x10_bit_str m ++ (x10_bit_str key ++ [true, false]))
    by simp [PREAMBLE, List.append_assoc]]
  simp only [processDispatch]
  rw [if_neg (show ¬([true, true, true, false] ≠ PREAMBLE) from fun hc => hc rfl)]
  rw [getNibbleM_x10]
  dsimp only
  rw [getNibbleM_x10]
  dsimp only
  rw [show getBitM [true, false] = some (some true, []) from rfl]
  dsimp only
  rcases hkey with rfl | rfl
  · rw [if_neg (by simp)]
    rw [if_neg (by simp)]
    rw [if_neg (by decide)]
    rw [if_neg (by decide)]
    rw [if_pos ⟨by left; rfl, rfl⟩]
    rw [show X10_FN_PRESET_DIM_0 &&& 15 = X10_FN_PRESET_DIM_0 from rfl]
  · rw [if_neg (by simp)]
    rw [if_neg (by simp)]
    rw [if_neg (by decide)]
    rw [if_neg (by decide)]
    rw [if_pos ⟨by right; rfl, rfl⟩]
    rw [show X10_FN_PRESET_DIM_1 &&& 15 = X10_FN_PRESET_DIM_1 from rfl]

theorem dispatch_ext (ab : Bool) (copies h u d c : Nat) :
    processDispatch ab copies
        (PREAMBLE ++ x10_bit_str h ++ x10_bit_str X10_FN_EXT_CODE ++ [true, false] ++
          x10_bit_str u ++ x10_bit_str (d >>> 4) ++ x10_bit_str d ++
          x10_bit_str (c >>> 4) ++ x10_bit_str c)
      = .out (.ev (.extendedCode ⟨h &&& 15, u &&& 15,
          ((d >>> 4) &&& 15) <<< 4 ||| (d &&& 15),
          ((c >>> 4) &&& 15) <<< 4 ||| (c &&& 15)⟩)) := by
  rw [show PREAMBLE ++ x10_bit_str h ++ x10_bit_str X10_FN_EXT_CODE ++ [true, false] ++
          x10_bit_str u ++ x10_bit_str (d >>> 4) ++ x10_bit_str d ++
          x10_bit_str (c >>> 4) ++ x10_bit_str c
      = true :: true :: true :: false
          :: (x10_bit_str h ++ (x10_bit_str X10_FN_EXT_CODE ++ (halfPair true
            ++ (x10_bit_str u ++ (x10_bit_str (d >>> 4) ++ (x10_bit_str d
            ++ (x10_bit_str (c >>> 4) ++ (x10_bit_str c ++ []))))))))
    by simp [PREAMBLE, halfPair, List.append_assoc]]
  simp only [processDispatch]
  rw [if_neg (show ¬([true, true, true, false] ≠ PREAMBLE) from fun hc => hc rfl)]
  rw [getNibbleM_x10]
  dsimp only
  rw [getNibbleM_x10]
  dsimp only
  rw [getBitM_halfPair]
  dsimp only
  rw [if_neg (by simp)]
  rw [if_neg (by simp)]
  rw [if_neg (show ¬_ from fun hc => absurd (And.left hc) (by decide))]
  rw [if_pos ⟨show X10_FN_EXT_CODE &&& 15 = X10_FN_EXT_CODE from rfl,
      by simp [x10_bit_str_length]⟩]
  rw [getNibbleM_x10]
  dsimp only
  rw [getNibbleM_x10]
  dsimp only
  rw [getNibbleM_x10]
  dsimp only
  rw [getNibbleM_x10]
  dsimp only
  rw [getNibbleM_x10]

theorem processFrame_dropTrail_pair (ab : Bool) (W : List Bool) (q : Nat) (hq : 1 ≤ q)
    (hWeven : W.length % 2 = 0) (cb : Bool) :
    processFrame ab (dropTrailZ (repL q (W ++ halfPair cb)))
      = processFramePadded ab (repL q (W ++ halfPair cb)) := by
  cases cb
  · exact processFrame_dropTrail_addr ab W q hq hWeven
  · exact processFrame_dropTrail_fn ab W q hq hWeven

theorem trailZ_repF_pair (W : List Bool) (q : Nat) (hq : 1 ≤ q) (cb : Bool) :
    trailZ (repL q (W ++ halfPair cb)) ≤ 5 := by
  obtain ⟨n, rfl⟩ : ∃ n, q = n + 1 := ⟨q - 1, by omega⟩
  rw [repL_succ_right]
  rw [show repL n (W ++ halfPair cb) ++ (W ++ halfPair cb)
      = (repL n (W ++ halfPair cb) ++ W) ++ halfPair cb by simp [List.append_assoc]]
  cases cb
  · rw [show halfPair false = [false, true] from rfl, trailZ_append_ft]
    omega
  · rw [show halfPair true = [true, false] from rfl, trailZ_append_tf]
    omega

theorem bepDecode_repF (body W : List Bool) (cb : Bool) (q k : Nat)
    (hb : PairStr body) (hq : 1 ≤ q) (hk : 6 ≤ k) (hlen : 18 ≤ body.length)
    (hW : [true, true, true, false] ++ body = W ++ halfPair cb)
    (hWeven : W.length % 2 = 0) :
    bepFeedBits true bep0
        (repL q ([true, true, true, false] ++ body) ++ List.replicate k false)
      = runOutcome (processDispatch true q ([true, true, true, false] ++ body)) := by
  have hhead : repL q ([true, true, true, false] ++ body)
      = true :: ([true, true, false]
          ++ (body ++ repL (q - 1) ([true, true, true, false] ++ body))) := by
    obtain ⟨n, rfl⟩ : ∃ n, q = n + 1 := ⟨q - 1, by omega⟩
    rw [repL_succ]
    simp
  have hruns : bepRunsOK 0 (repL q ([true, true, true, false] ++ body)) = true :=
    bepRunsOK_repF hb q 0 (by omega)
  have htz : trailZ (repL q ([true, true, true, false] ++ body)) ≤ 5 := by
    rw [hW]
    exact trailZ_repF_pair W q hq cb
  rw [hhead] at hruns htz ⊢
  rw [bepRun_encode true ([true, true, false]
      ++ (body ++ repL (q - 1) ([true, true, true, false] ++ body))) k hk hruns htz]
  rw [← hhead]
  rw [hW]
  rw [processFrame_dropTrail_pair true W q hq hWeven cb]
  rw [← hW]
  rw [processFramePadded_allbits q hq hb hlen]

theorem and15_small (n : Nat) (h : n < 16) : n &&& 15 = n := by
  have key : ∀ m, m < 16 → m &&& 15 = m := by decide
  exact key n h

set_option maxRecDepth 4096 in
theorem byte_recompose (d : Nat) (h : d < 256) :
    ((d >>> 4) &&& 15) <<< 4 ||| (d &&& 15) = d := by
  have key : ∀ m, m < 256 → ((m >>> 4) &&& 15) <<< 4 ||| (m &&& 15) = m := by decide
  exact key d h

theorem pd_recompose (d : Nat) (h : d < 32) :
    (if ((if (d &&& 16 != 0 : Bool) then X10_FN_PRESET_DIM_1 else X10_FN_PRESET_DIM_0)
        = X10_FN_PRESET_DIM_1) then 16 else 0) + (d &&& 15) = d := by
  have key : ∀ m, m < 32 →
      (if ((if (m &&& 16 != 0 : Bool) then X10_FN_PRESET_DIM_1 else X10_FN_PRESET_DIM_0)
          = X10_FN_PRESET_DIM_1) then 16 else 0) + (m &&& 15) = m := by decide
  exact key d h

theorem pyTrunc_div31 (k : Nat) : pyTrunc ((k : ℚ) / 31 * 31) = (k : Int) := by
  have h31 : ((k : ℚ) / 31) * 31 = (k : ℚ) := div_mul_cancel₀ _ (by norm_num)
  rw [h31, pyTrunc_nonneg _ (by positivity)]
  exact Int.floor_natCast k

theorem pairStr_tf : PairStr [true, false] := PairStr.one [] PairStr.nil

theorem pairStr_ft : PairStr [false, true] := PairStr.zero [] PairStr.nil

/-- C1: for every event of the Address, Function, AbsoluteDim or ExtendedCode
variants with in-range fields (and, for AbsoluteDim, a level that is an exact
multiple of 1/31, and function codes outside {Dim, Bright, Preset Dim 0/1}),
feeding `as_bit_str` followed by at least six zero half-cycles into a
`BitEventProcessor` in all-bits mode emits exactly the event back. -/
theorem c1_theorem (e : X10Event) (he : c1Good e) (k : Nat) (hk : 6 ≤ k) :
    bepFeedBits true bep0 (X10Event_as_bit_str e ++ List.replicate k false)
      = some (bep0, [BOut.ev e]) := by
  cases e with
  | address a =>
    obtain ⟨h, u⟩ := a
    obtain ⟨hh, hu⟩ := he
    have henc : X10Event_as_bit_str (.address ⟨h, u⟩)
        = repL 2 ([true, true, true, false]
            ++ (x10_bit_str h ++ (x10_bit_str u ++ [false, true]))) := by
      simp [X10Event_as_bit_str, as_bit_str_and_qty, X10AddressEvent_as_bit_str_and_qty,
        PREAMBLE, List.append_assoc]
    rw [henc]
    rw [bepDecode_repF (x10_bit_str h ++ (x10_bit_str u ++ [false, true]))
        ([true, true, true, false] ++ x10_bit_str h ++ x10_bit_str u) false 2 k
        (by exact (pairStr_x10_bit_str h).append ((pairStr_x10_bit_str u).append pairStr_ft))
        (by norm_num) hk
        (by simp [x10_bit_str_length])
        (by simp [halfPair, List.append_assoc])
        (by simp [x10_bit_str_length])]
    rw [show [true, true, true, false] ++ (x10_bit_str h ++ (x10_bit_str u ++ [false, true]))
        = PREAMBLE ++ x10_bit_str h ++ x10_bit_str u ++ [false, true]
      by simp [PREAMBLE, List.append_assoc]]
    rw [dispatch_addr true 2 h u]
    rw [and15_small h hh, and15_small u hu]
    rfl
  | functionEv f =>
    obtain ⟨h, fn⟩ := f
    obtain ⟨hh, hf, h4, h5, h10, h11⟩ := he
    have hf15 : fn &&& 15 = fn := and15_small fn hf
    have henc : X10Event_as_bit_str (.functionEv ⟨h, fn⟩)
        = repL 2 ([true, true, true, false]
            ++ (x10_bit_str h ++ (x10_bit_str fn ++ [true, false]))) := by
      simp [X10Event_as_bit_str, as_bit_str_and_qty, X10FunctionEvent_as_bit_str_and_qty,
        PREAMBLE, List.append_assoc]
    rw [henc]
    rw [bepDecode_repF (x10_bit_str h ++ (x10_bit_str fn ++ [true, false]))
        ([true, true, true, false] ++ x10_bit_str h ++ x10_bit_str fn) true 2 k
        (by exact (pairStr_x10_bit_str h).append ((pairStr_x10_bit_str fn).append pairStr_tf))
        (by norm_num) hk
        (by simp [x10_bit_str_length])
        (by simp [halfPair, List.append_assoc])
        (by simp [x10_bit_str_length])]
    rw [show [true, true, true, false] ++ (x10_bit_str h ++ (x10_bit_str fn ++ [true, false]))
        = PREAMBLE ++ x10_bit_str h ++ x10_bit_str fn ++ [true, false]
      by simp [PREAMBLE, List.append_assoc]]
    rw [dispatch_fn true 2 h fn (by rw [hf15]; exact h4) (by rw [hf15]; exact h5)
      (by rw [hf15]; exact h10) (by rw [hf15]; exact h11)]
    rw [and15_small h hh, hf15]
    rfl
  | relativeDim r => exact he.elim
  | absoluteDim dd =>
    obtain ⟨dim⟩ := dd
    obtain ⟨kv, hkv, hdim⟩ := he
    have hdim' : dim = (kv : ℚ) / 31 := hdim
    subst hdim'
    have henc : X10Event_as_bit_str (.absoluteDim ⟨(kv : ℚ) / 31⟩)
        = repL 2 ([true, true, true, false] ++ (x10_bit_str (kv &&& 15)
            ++ (x10_bit_str (if (kv &&& 16 != 0 : Bool) then X10_FN_PRESET_DIM_1
                  else X10_FN_PRESET_DIM_0) ++ [true, false]))) := by
      simp only [X10Event_as_bit_str, as_bit_str_and_qty, X10AbsoluteDimEvent_as_bit_str_and_qty]
      rw [pyTrunc_div31 kv]
      simp [PREAMBLE, List.append_assoc]
    rw [henc]
    rw [bepDecode_repF (x10_bit_str (kv &&& 15)
          ++ (x10_bit_str (if (kv &&& 16 != 0 : Bool) then X10_FN_PRESET_DIM_1
                else X10_FN_PRESET_DIM_0) ++ [true, false]))
        ([true, true, true, false] ++ x10_bit_str (kv &&& 15)
          ++ x10_bit_str (if (kv &&& 16 != 0 : Bool) then X10_FN_PRESET_DIM_1
                else X10_FN_PRESET_DIM_0)) true 2 k
        (by
          exact (pairStr_x10_bit_str (kv &&& 15)).append
            ((pairStr_x10_bit_str (if (kv &&& 16 != 0 : Bool) then X10_FN_PRESET_DIM_1
              else X10_FN_PRESET_DIM_0)).append pairStr_tf))
        (by norm_num) hk
        (by simp [x10_bit_str_length])
        (by simp [halfPair, List.append_assoc])
        (by simp [x10_bit_str_length])]
    rw [show [true, true, true, false] ++ (x10_bit_str (kv &&& 15)
          ++ (x10_bit_str (if (kv &&& 16 != 0 : Bool) then X10_FN_PRESET_DIM_1
                else X10_FN_PRESET_DIM_0) ++ [true, false]))
        = PREAMBLE ++ x10_bit_str (kv &&& 15)
            ++ x10_bit_str (if (kv &&& 16 != 0 : Bool) then X10_FN_PRESET_DIM_1
                  else X10_FN_PRESET_DIM_0) ++ [true, false]
      by simp [PREAMBLE, List.append_assoc]]
    rw [dispatch_pd true 2 (kv &&& 15)
        (if (kv &&& 16 != 0 : Bool) then X10_FN_PRESET_DIM_1 else X10_FN_PRESET_DIM_0)
        (by cases h16 : (kv &&& 16 != 0 : Bool) <;> simp [h16])]
    rw [show (kv &&& 15) &&& 15 = kv &&& 15 from by rw [Nat.and_assoc]; rfl]
    rw [pd_recompose kv (by omega)]
    rfl
  | extendedCode x =>
    obtain ⟨h, u, d, c⟩ := x
    obtain ⟨hh, hu, hd, hc⟩ := he
    have henc : X10Event_as_bit_str (.extendedCode ⟨h, u, d, c⟩)
        = repL 2 ([true, true, true, false] ++ (x10_bit_str h ++ (x10_bit_str X10_FN_EXT_CODE
            ++ ([true, false] ++ (x10_bit_str u ++ (x10_bit_str (d >>> 4)
            ++ (x10_bit_str d ++ (x10_bit_str (c >>> 4) ++ x10_bit_str c)))))))) := by
      simp [X10Event_as_bit_str, as_bit_str_and_qty, X10ExtendedCodeEvent_as_bit_str_and_qty,
        PREAMBLE, List.append_assoc]
    rw [henc]
    rw [bepDecode_repF (x10_bit_str h ++ (x10_bit_str X10_FN_EXT_CODE
          ++ ([true, false] ++ (x10_bit_str u ++ (x10_bit_str (d >>> 4)
          ++ (x10_bit_str d ++ (x10_bit_str (c >>> 4) ++ x10_bit_str c)))))))
        ([true, true, true, false] ++ x10_bit_str h ++ x10_bit_str X10_FN_EXT_CODE
          ++ [true, false] ++ x10_bit_str u ++ x10_bit_str (d >>> 4) ++ x10_bit_str d
          ++ x10_bit_str (c >>> 4)
          ++ (halfPair (c &&& 8 != 0) ++ halfPair (c &&& 4 != 0) ++ halfPair (c &&& 2 != 0)))
        (c &&& 1 != 0) 2 k
        (by
          exact (pairStr_x10_bit_str h).append ((pairStr_x10_bit_str X10_FN_EXT_CODE).append
            (pairStr_tf.append ((pairStr_x10_bit_str u).append
              ((pairStr_x10_bit_str (d >>> 4)).append ((pairStr_x10_bit_str d).append
                ((pairStr_x10_bit_str (c >>> 4)).append (pairStr_x10_bit_str c))))))))
        (by norm_num) hk
        (by simp [x10_bit_str_length])
        (by simp [x10_bit_str, halfPair, List.append_assoc])
        (by simp [x10_bit_str_length, halfPair_length])]
    rw [show [true, true, true, false] ++ (x10_bit_str h ++ (x10_bit_str X10_FN_EXT_CODE
          ++ ([true, false] ++ (x10_bit_str u ++ (x10_bit_str (d >>> 4)
          ++ (x10_bit_str d ++ (x10_bit_str (c >>> 4) ++ x10_bit_str c)))))))
        = PREAMBLE ++ x10_bit_str h ++ x10_bit_str X10_FN_EXT_CODE ++ [true, false]
            ++ x10_bit_str u ++ x10_bit_str (d >>> 4) ++ x10_bit_str d
            ++ x10_bit_str (c >>> 4) ++ x10_bit_str c
      by simp [PREAMBLE, List.append_assoc]]
    rw [dispatch_ext true 2 h u d c]
    rw [and15_small h hh, and15_small u hu, byte_recompose d hd, byte_recompose c hc]
    rfl

/-- C1 witness: Address(6,3) round-trips through encode and all-bits decode. -/
theorem c1_witness :
    bepFeedBits true bep0 (X10Event_as_bit_str (.address ⟨6, 3⟩) ++ List.replicate 6 false)
      = some (bep0, [BOut.ev (.address ⟨6, 3⟩)]) :=
  c1_theorem (.address ⟨6, 3⟩) ⟨by norm_num, by norm_num⟩ 6 (by norm_num)

/-- C1 counterexample to the claim as stated: a Function event with the Dim key
decodes to a RelativeDim event, not back to itself, and AbsoluteDim(1/2) decodes
to AbsoluteDim(15/31) ≠ AbsoluteDim(1/2) because the encoder truncates dim*31. -/
theorem c1_counterexample :
    (bepFeedBits true bep0
        (X10Event_as_bit_str (.functionEv ⟨6, X10_FN_DIM⟩) ++ List.replicate 6 false)
      = some (bep0, [BOut.ev (.relativeDim ⟨6,
          ((-(min ((2 : Nat) : Int) ((RELATIVE_DIM_STEPS : Nat) : Int)) : Int) : ℚ)
            / ((RELATIVE_DIM_STEPS : Nat) : ℚ)⟩)]))
    ∧ some (bep0, [BOut.ev (.relativeDim ⟨6,
          ((-(min ((2 : Nat) : Int) ((RELATIVE_DIM_STEPS : Nat) : Int)) : Int) : ℚ)
            / ((RELATIVE_DIM_STEPS : Nat) : ℚ)⟩)])
        ≠ some (bep0, [BOut.ev (.functionEv ⟨6, X10_FN_DIM⟩)])
    ∧ (bepFeedBits true bep0
        (X10Event_as_bit_str (.absoluteDim ⟨(1/2 : ℚ)⟩) ++ List.replicate 6 false)
      = some (bep0, [BOut.ev (.absoluteDim ⟨((15 : Nat) : ℚ) / 31⟩)]))
    ∧ ((15 : Nat) : ℚ) / 31 ≠ (1/2 : ℚ) := by
  refine ⟨by rfl, by simp, ?_, by norm_num⟩
  have hq : pyTrunc ((⟨(1/2 : ℚ)⟩ : X10AbsoluteDimEvent).dim * 31) = 15 := by
    dsimp only
    rw [pyTrunc_nonneg _ (by norm_num)]
    rw [Int.floor_eq_iff]
    norm_num
  have henc : X10Event_as_bit_str (.absoluteDim ⟨(1/2 : ℚ)⟩)
      = repL 2 (PREAMBLE ++ x10_bit_str 15 ++ x10_bit_str X10_FN_PRESET_DIM_0
          ++ [true, false]) := by
    simp only [X10Event_as_bit_str, as_bit_str_and_qty, X10AbsoluteDimEvent_as_bit_str_and_qty]
    rw [hq]
    rfl
  rw [henc]
  rfl

/-- C2: for a RelativeDim event with `N = int(22·|dim|)` (Python truncation,
not rounding) in [1, 22], the line encoding is exactly N contiguous copies of
the Dim/Bright frame, and all-bits decoding yields a RelativeDim event with
the same house code, the sign of the original dim, and magnitude N/22. -/
theorem c2_theorem (e : X10RelativeDimEvent) (N k : Nat)
    (hh : e.house_code < 16)
    (hN : pyTrunc ((RELATIVE_DIM_STEPS : ℚ) * |e.dim|) = (N : Int))
    (hN1 : 1 ≤ N) (hN22 : N ≤ 22) (hk : 6 ≤ k) :
    X10Event_as_bit_str (.relativeDim e)
        = repL N (PREAMBLE ++ x10_bit_str e.house_code
            ++ x10_bit_str (if e.dim < 0 then X10_FN_DIM else X10_FN_BRIGHT) ++ [true, false])
      ∧ bepFeedBits true bep0 (X10Event_as_bit_str (.relativeDim e) ++ List.replicate k false)
        = some (bep0, [BOut.ev (.relativeDim ⟨e.house_code,
            (if e.dim < 0 then -((N : Nat) : ℚ) else ((N : Nat) : ℚ))
              / ((RELATIVE_DIM_STEPS : Nat) : ℚ)⟩)]) := by
  obtain ⟨h, dim⟩ := e
  dsimp only at hh hN ⊢
  have henc : X10Event_as_bit_str (.relativeDim ⟨h, dim⟩)
      = repL N (PREAMBLE ++ x10_bit_str h
          ++ x10_bit_str (if dim < 0 then X10_FN_DIM else X10_FN_BRIGHT) ++ [true, false]) := by
    simp only [X10Event_as_bit_str, as_bit_str_and_qty, X10RelativeDimEvent_as_bit_str_and_qty]
    dsimp only
    rw [hN]
    simp [Int.toNat_natCast]
  refine ⟨henc, ?_⟩
  rw [henc]
  rw [show PREAMBLE ++ x10_bit_str h
        ++ x10_bit_str (if dim < 0 then X10_FN_DIM else X10_FN_BRIGHT) ++ [true, false]
      = [true, true, true, false] ++ (x10_bit_str h
          ++ (x10_bit_str (if dim < 0 then X10_FN_DIM else X10_FN_BRIGHT) ++ [true, false]))
    by simp [PREAMBLE, List.append_assoc]]
  rw [bepDecode_repF (x10_bit_str h
        ++ (x10_bit_str (if dim < 0 then X10_FN_DIM else X10_FN_BRIGHT) ++ [true, false]))
      ([true, true, true, false] ++ x10_bit_str h
        ++ x10_bit_str (if dim < 0 then X10_FN_DIM else X10_FN_BRIGHT))
      true N k
      (by
        exact (pairStr_x10_bit_str h).append
          ((pairStr_x10_bit_str (if dim < 0 then X10_FN_DIM else X10_FN_BRIGHT)).append
            pairStr_tf))
      hN1 hk
      (by simp [x10_bit_str_length])
      (by simp [halfPair, List.append_assoc])
      (by simp [x10_bit_str_length])]
  rw [show [true, true, true, false] ++ (x10_bit_str h
        ++ (x10_bit_str (if dim < 0 then X10_FN_DIM else X10_FN_BRIGHT) ++ [true, false]))
      = PREAMBLE ++ x10_bit_str h
          ++ x10_bit_str (if dim < 0 then X10_FN_DIM else X10_FN_BRIGHT) ++ [true, false]
    by simp [PREAMBLE, List.append_assoc]]
  have hmin : min ((N : Nat) : Int) ((RELATIVE_DIM_STEPS : Nat) : Int) = ((N : Nat) : Int) := by
    apply min_eq_left
    simp only [RELATIVE_DIM_STEPS]
    exact_mod_cast hN22
  by_cases hneg : dim < 0
  · simp only [if_pos hneg]
    rw [dispatch_dim_neg N h]
    rw [hmin, and15_small h hh]
    simp only [runOutcome]
    norm_cast
  · simp only [if_neg hneg]
    rw [dispatch_dim_pos N h]
    rw [hmin, and15_small h hh]
    simp only [runOutcome, Int.cast_natCast]

/-- C2 witness: RelativeDim(house 6, dim −1/11) encodes as 2 contiguous frames
and decodes to RelativeDim(6, −2/22). -/
theorem c2_witness :
    X10Event_as_bit_str (.relativeDim ⟨6, -(1/11 : ℚ)⟩)
        = repL 2 (PREAMBLE ++ x10_bit_str 6
            ++ x10_bit_str (if (-(1/11 : ℚ)) < 0 then X10_FN_DIM else X10_FN_BRIGHT)
            ++ [true, false])
      ∧ bepFeedBits true bep0
          (X10Event_as_bit_str (.relativeDim ⟨6, -(1/11 : ℚ)⟩) ++ List.replicate 6 false)
        = some (bep0, [BOut.ev (.relativeDim ⟨6,
            (if (-(1/11 : ℚ)) < 0 then -(((2 : Nat)) : ℚ) else (((2 : Nat)) : ℚ))
              / ((RELATIVE_DIM_STEPS : Nat) : ℚ)⟩)]) :=
  c2_theorem ⟨6, -(1/11 : ℚ)⟩ 2 6 (by norm_num)
    (by
      dsimp only
      rw [show (RELATIVE_DIM_STEPS : ℚ) * |(-(1/11 : ℚ))| = 2 by
        rw [abs_neg, abs_of_nonneg (show (0:ℚ) ≤ 1/11 by norm_num)]
        norm_num [RELATIVE_DIM_STEPS]]
      rw [pyTrunc_nonneg _ (by norm_num), Int.floor_eq_iff]
      norm_num)
    (by norm_num) (by norm_num) (by norm_num)

/-- C2 counterexample to the claimed `round`: at dim = −1/8 the rounded count
is 3 but the encoder truncates 22·(1/8) = 2.75 to 2 copies, so the encoding
is not 3 copies of the frame. -/
theorem c2_counterexample :
    round ((RELATIVE_DIM_STEPS : ℚ) * |(-(1/8 : ℚ))|) = 3 ∧
    X10Event_as_bit_str (.relativeDim ⟨6, -(1/8 : ℚ)⟩)
      ≠ repL 3 (PREAMBLE ++ x10_bit_str 6 ++ x10_bit_str X10_FN_DIM ++ [true, false]) := by
  constructor
  · rw [show (RELATIVE_DIM_STEPS : ℚ) * |(-(1/8 : ℚ))| = 11/4 by
      rw [abs_neg, abs_of_nonneg (show (0:ℚ) ≤ 1/8 by norm_num)]
      norm_num [RELATIVE_DIM_STEPS]]
    rw [round_eq]
    rw [show (11/4 : ℚ) + 1/2 = 13/4 by norm_num]
    rw [Int.floor_eq_iff]
    norm_num
  · have hq : pyTrunc ((RELATIVE_DIM_STEPS : ℚ) * |(-(1/8 : ℚ))|) = (2 : Int) := by
      rw [show (RELATIVE_DIM_STEPS : ℚ) * |(-(1/8 : ℚ))| = 11/4 by
      rw [abs_neg, abs_of_nonneg (show (0:ℚ) ≤ 1/8 by norm_num)]
      norm_num [RELATIVE_DIM_STEPS]]
      rw [pyTrunc_nonneg _ (by norm_num), Int.floor_eq_iff]
      norm_num
    have henc : X10Event_as_bit_str (.relativeDim ⟨6, -(1/8 : ℚ)⟩)
        = repL 2 (PREAMBLE ++ x10_bit_str 6 ++ x10_bit_str X10_FN_DIM ++ [true, false]) := by
      simp only [X10Event_as_bit_str, as_bit_str_and_qty, X10RelativeDimEvent_as_bit_str_and_qty]
      dsimp only
      rw [hq]
      rw [if_pos (show (-(1/8 : ℚ)) < 0 by norm_num)]
      rfl
    rw [henc]
    decide

end PyX10
